import Mathlib

/-!
# Verification of the Legion turn-orchestration engine

Shallow embedding of `src/gemini-legion-frontend/services/legionApiService.ts`
(together with the data shapes of `types.ts` and the constants of
`constants.ts`).  JavaScript objects keyed by strings (`Record<string, T>`,
`localStorage`) are modelled as association lists with first-match semantics;
JavaScript `number` fields are modelled as `Int` (all uses in the claims are
with integral values); optional fields (`T | undefined | null`) become
`Option T`, and `undefined`/absent boolean flags become `false`.
`Date.now()` is modelled by an explicit `now : Nat` parameter: a single run of
an operation uses one timestamp value, which is a possible JavaScript
execution (all calls within the same millisecond) and the timestamps never
influence control flow in the source.  The external model client
(`callGeminiApiForJson` / `callGeminiAPIStream`) is abstracted as an oracle
indexed by the minion being served: within one batch every minion is consulted
at most once per stage, so a per-minion oracle is fully general.  Thrown
exceptions are modelled with `Option`/`Except`, and throwing code paths map to
`none`/`.error`.
-/

/-- `ApiKey` of `types.ts`: a pooled credential. -/
structure ApiKey where
  id : String
  name : String
  key : String
deriving DecidableEq, Repr

/-- The `method` union `'Assigned' | 'Load Balanced' | 'None'`. -/
inductive KeyMethod where
  | assigned
  | loadBalanced
  | noKeyAvailable
deriving DecidableEq, Repr

/-- Rendering of `KeyMethod` as interpolated into the audit log content. -/
def methodStr : KeyMethod → String
  | .assigned => "Assigned"
  | .loadBalanced => "Load Balanced"
  | .noKeyAvailable => "None"

/-- `SelectedKeyInfo` of `types.ts`. -/
structure SelectedKeyInfo where
  key : String
  name : String
  method : KeyMethod
deriving DecidableEq, Repr

/-- The `action` union `'SPEAK' | 'STAY_SILENT'` of `PerceptionPlan`. -/
inductive PlanAction where
  | speak
  | staySilent
deriving DecidableEq, Repr

/-- One entry of `MinionDiaryState.opinionUpdates`. -/
structure OpinionUpdate where
  participantName : String
  newScore : Int
  reasonForChange : String
deriving DecidableEq, Repr

/-- `PerceptionPlan` of `types.ts` (which extends `MinionDiaryState`);
the structured decision object produced by the perception stage. -/
structure PerceptionPlan where
  perceptionAnalysis : String
  opinionUpdates : List OpinionUpdate
  finalOpinions : List (String × Int)
  selectedResponseMode : String
  personalNotes : Option String
  action : PlanAction
  responsePlan : String
  predictedResponseTime : Int
deriving DecidableEq, Repr

/-- `MinionConfig` of `types.ts`.  `params.temperature` is kept (it is
threaded to the model client but never branches), `provider` is the constant
`'google'` and is dropped. -/
structure MinionConfig where
  id : String
  name : String
  model_id : String
  system_prompt_persona : String
  temperature : Int
  apiKeyId : Option String
  opinionScores : List (String × Int)
  lastDiaryState : Option PerceptionPlan
  status : Option String
deriving DecidableEq, Repr

/-- `MessageSender` of `types.ts`. -/
inductive MessageSender where
  | user
  | ai
  | system
deriving DecidableEq, Repr

/-- `ChatMessageData` of `types.ts`.  Optional boolean flags are `false` when
absent in the source object literal. -/
structure ChatMessageData where
  id : String
  channelId : String
  senderType : MessageSender
  senderName : String
  content : String
  timestamp : Nat
  internalDiary : Option PerceptionPlan
  isError : Bool
  isProcessing : Bool
  isApiKeyLog : Bool
deriving DecidableEq, Repr

/-- `ChannelType` of `types.ts`. -/
inductive ChannelType where
  | user_minion_group
  | minion_minion_auto
  | system_log
deriving DecidableEq, Repr

/-- `Channel` of `types.ts`; delay-policy fields are carried but never read by
the operations under verification. -/
structure Channel where
  id : String
  name : String
  description : String
  ctype : ChannelType
  members : List String
  isAutoModeActive : Bool
deriving DecidableEq, Repr

/-- The private mutable state of the `LegionApiService` class. -/
structure ServiceState where
  minionConfigs : List MinionConfig
  channels : List Channel
  messages : List (String × List ChatMessageData)
  apiKeys : List ApiKey
  apiKeyRoundRobinIndex : Nat
deriving DecidableEq, Repr

/-- `LEGION_COMMANDER_NAME` of `constants.ts`. -/
def LEGION_COMMANDER_NAME : String := "Steven"

/-! ## Association lists (JavaScript objects keyed by strings) -/

/-- Property read `obj[k]` (JavaScript object keys are unique; on the lists we
build, the first match is the only match). -/
def alistGet? {α : Type} : List (String × α) → String → Option α
  | [], _ => none
  | p :: rest, k => if p.1 == k then some p.2 else alistGet? rest k

/-- Property write `obj[k] = v`: update the existing key in place, else append
(JavaScript preserves insertion order of object keys). -/
def alistSet {α : Type} : List (String × α) → String → α → List (String × α)
  | [], k, v => [(k, v)]
  | p :: rest, k, v => if p.1 == k then (k, v) :: rest else p :: alistSet rest k v

/-- Property removal `delete obj[k]`. -/
def alistRemove {α : Type} : List (String × α) → String → List (String × α)
  | [], _ => []
  | p :: rest, k => if p.1 == k then alistRemove rest k else p :: alistRemove rest k

/-- `this.messages[channelId] || []`. -/
def msgsGet (s : ServiceState) (cid : String) : List ChatMessageData :=
  match alistGet? s.messages cid with
  | some l => l
  | none => []

/-- `this.messages[channelId] = l`. -/
def msgsSet (s : ServiceState) (cid : String) (l : List ChatMessageData) : ServiceState :=
  { s with messages := alistSet s.messages cid l }

/-! ## Persistence helper `getStoredData` (lines 17-30)

`localStorage` is modelled as an association list `String × String`;
`JSON.parse` — an external capability — is modelled as an abstract
`parse : String → Option T` (`none` = the parse throws). -/

/-- `getStoredData<T>(key, defaultValue)`: returns the loaded value and the
localStorage contents after the call. -/
def getStoredData {T : Type} (parse : String → Option T) (now : Nat)
    (store : List (String × String)) (key : String) (defaultValue : T) :
    T × List (String × String) :=
  match alistGet? store key with
  | none => (defaultValue, store)
  | some saved =>
    if saved == "undefined" then (defaultValue, store)
    else
      match parse saved with
      | some v => (v, store)
      | none =>
        (defaultValue,
          alistRemove (alistSet store (key ++ "_corrupted_" ++ toString now) saved) key)

/-! ## Credential pool (lines 91-120) -/

/-- Result of `_selectApiKey`.  `crash` models the `TypeError` thrown by
reading `.key` of `undefined` when the round-robin cursor is outside the pool
(reachable because `deleteApiKey` shrinks the pool without clamping the
cursor); the carried state records that the cursor was advanced before the
throw. -/
inductive SelectResult where
  | ok (info : SelectedKeyInfo) (s : ServiceState)
  | crash (s : ServiceState)
deriving DecidableEq, Repr

/-- `_selectApiKey(minion?)` (lines 109-120); `pin` is `minion?.apiKeyId`,
whose JavaScript truthiness test rejects both `undefined` and `""`. -/
def selectApiKey (pin : Option String) (s : ServiceState) : SelectResult :=
  let rr : SelectResult :=
    if s.apiKeys.length > 0 then
      let s' := { s with apiKeyRoundRobinIndex := (s.apiKeyRoundRobinIndex + 1) % s.apiKeys.length }
      match s.apiKeys[s.apiKeyRoundRobinIndex]? with
      | some keyInfo => .ok ⟨keyInfo.key, keyInfo.name, .loadBalanced⟩ s'
      | none => .crash s'
    else .ok ⟨"", "N/A", .noKeyAvailable⟩ s
  match pin with
  | some p =>
    if p == "" then rr
    else
      match s.apiKeys.find? (fun k => k.id == p) with
      | some specificKey => .ok ⟨specificKey.key, specificKey.name, .assigned⟩ s
      | none => rr
  | none => rr

/-- `k` consecutive unpinned selections; `none` if any of them throws. -/
def selectSeq : Nat → ServiceState → Option (List SelectedKeyInfo × ServiceState)
  | 0, s => some ([], s)
  | n + 1, s =>
    match selectApiKey none s with
    | .crash _ => none
    | .ok info s' =>
      match selectSeq n s' with
      | none => none
      | some (l, s'') => some (info :: l, s'')

/-- The `SelectedKeyInfo` produced for a pool credential on the round-robin
path. -/
def rrInfo (k : ApiKey) : SelectedKeyInfo := ⟨k.key, k.name, .loadBalanced⟩

/-- `addApiKey(name, key)` (lines 91-96); `.trim()` blank test throws. -/
def addApiKey (name key : String) (now : Nat) (s : ServiceState) : Except String ServiceState :=
  if name.trim == "" || key.trim == "" then .error "API Key and Name cannot be empty."
  else .ok { s with apiKeys := s.apiKeys ++ [⟨"key-" ++ toString now, name, key⟩] }

/-- `deleteApiKey(id)` (lines 98-107): clears matching minion pins, then
filters the pool.  The round-robin cursor is not adjusted. -/
def deleteApiKey (id : String) (s : ServiceState) : ServiceState :=
  { s with
    minionConfigs := s.minionConfigs.map (fun m =>
      if m.apiKeyId == some id then { m with apiKeyId := none } else m),
    apiKeys := s.apiKeys.filter (fun k => !(k.id == id)) }

/-! ## Minion / channel / message management -/

/-- Update the first element satisfying `p` (the `findIndex` + assignment
idiom of the source). -/
def updateFirstBy {α : Type} (p : α → Bool) (f : α → α) : List α → List α
  | [] => []
  | x :: rest => if p x then f x :: rest else x :: updateFirstBy p f rest

/-- `addMinion(config)` (lines 139-161).  Every existing minion gains an
opinion entry of 50 for the newcomer; the newcomer is seeded with 50 for the
commander and every existing minion; its diary starts `null`. -/
def addMinion (config : MinionConfig) (now : Nat) (s : ServiceState) :
    MinionConfig × ServiceState :=
  let newMinionName := config.name
  let updatedExisting := s.minionConfigs.map (fun m =>
    { m with opinionScores := alistSet m.opinionScores newMinionName 50 })
  let initialScoresForNewMinion :=
    s.minionConfigs.foldl (fun acc m => alistSet acc m.name 50)
      (alistSet [] LEGION_COMMANDER_NAME 50)
  let newMinion : MinionConfig :=
    { config with
      id := if config.id == "" then "minion-" ++ toString now else config.id,
      opinionScores := initialScoresForNewMinion,
      status := some "Idle",
      lastDiaryState := none }
  (newMinion, { s with minionConfigs := updatedExisting ++ [newMinion] })

/-- `updateMinion(updatedConfig)` (lines 163-169). -/
def updateMinion (updatedConfig : MinionConfig) (s : ServiceState) :
    Except String ServiceState :=
  if s.minionConfigs.any (fun m => m.id == updatedConfig.id) then
    .ok { s with minionConfigs :=
      updateFirstBy (fun m => m.id == updatedConfig.id) (fun _ => updatedConfig) s.minionConfigs }
  else .error "Minion not found for update."

/-- `deleteMinion(id)` (lines 171-181): a missing id resolves successfully
without touching anything. -/
def deleteMinion (id : String) (s : ServiceState) : Except String ServiceState :=
  match s.minionConfigs.find? (fun m => m.id == id) with
  | none => .ok s
  | some minionToDelete =>
    .ok { s with
      minionConfigs := (s.minionConfigs.filter (fun m => !(m.id == id))).map (fun m =>
        { m with opinionScores := alistRemove m.opinionScores minionToDelete.name }),
      channels := s.channels.map (fun c =>
        { c with members := c.members.filter (fun n => !(n == minionToDelete.name)) }) }

/-- `updateChannel(updatedChannelData)` (lines 207-214).  The payload is
modelled with every field present, so the object spread amounts to replacing
the stored channel. -/
def updateChannel (updated : Channel) (s : ServiceState) : Except String ServiceState :=
  if s.channels.any (fun c => c.id == updated.id) then
    .ok { s with channels :=
      updateFirstBy (fun c => c.id == updated.id) (fun _ => updated) s.channels }
  else .error "Channel not found for update."

/-- `deleteMessage(channelId, messageId)` (lines 421-424): an unconditional
filter, resolving successfully whether or not the message exists. -/
def deleteMessage (cid mid : String) (s : ServiceState) : Except String ServiceState :=
  .ok (msgsSet s cid ((msgsGet s cid).filter (fun m => !(m.id == mid))))

/-- `editMessage(channelId, messageId, newContent)` (lines 426-431). -/
def editMessage (cid mid newContent : String) (s : ServiceState) :
    Except String ServiceState :=
  .ok (msgsSet s cid ((msgsGet s cid).map (fun m =>
    if m.id == mid then { m with content := newContent } else m)))

/-- `updateMinionState(minionId, plan)` (lines 413-419): commit the plan into
the acting minion's emotional state. -/
def updateMinionState (minionId : String) (plan : PerceptionPlan) (s : ServiceState) :
    ServiceState :=
  { s with minionConfigs :=
    (updateFirstBy (fun m => m.id == minionId)
      (fun m => { m with opinionScores := plan.finalOpinions, lastDiaryState := some plan })
      s.minionConfigs) }

/-! ## The two-stage batch pipeline

Observer callbacks (`onMinionResponse`, `onMinionResponseChunk`,
`onMinionProcessingUpdate`, `onSystemMessage`) are modelled as an emitted
event trace. -/

/-- One observer-callback invocation. -/
inductive Event where
  | minionResponse (message : ChatMessageData)
  | responseChunk (channelId : String) (messageId : String) (chunk : String)
  | processingUpdate (minionName : String) (isProcessing : Bool)
  | systemMessage (message : ChatMessageData)
deriving DecidableEq, Repr

/-- The `{plan, error}` pair returned by `callGeminiApiForJson` (and by the
synthesized non-call outcomes). -/
structure PerceptionOutcome where
  plan : Option PerceptionPlan
  error : Option String
deriving DecidableEq, Repr

/-- Observable behaviour of one `callGeminiAPIStream` run: the delivered
chunks, terminated either by the final marker or by the error callback. -/
inductive StreamOutcome where
  | success (chunks : List String)
  | failure (chunks : List String) (message : String)
deriving DecidableEq, Repr

/-- JavaScript truthiness of the `error` field (a string): `undefined` and
`""` are falsy. -/
def errTruthy : Option String → Bool
  | some e => e != ""
  | none => false

/-- `error || 'No plan returned.'` -/
def errText : Option String → String
  | some e => if e == "" then "No plan returned." else e
  | none => "No plan returned."

/-- Content of a `_createApiKeyLogMessage` audit entry. -/
def keylogContent (minionName keyName method stage : String) : String :=
  minionName ++ (" is using key \x27" ++ (keyName ++ ("\x27 (" ++ (method ++ (") for " ++ (stage ++ "."))))))

/-- `_createApiKeyLogMessage` (lines 122-132). -/
def apiKeyLogMessage (cid minionName : String) (keyInfo : SelectedKeyInfo)
    (stage : String) (now : Nat) : ChatMessageData :=
  { id := "sys-keylog-" ++ minionName ++ "-" ++ toString now, channelId := cid,
    senderType := .system, senderName := "System",
    content := keylogContent minionName keyInfo.name (methodStr keyInfo.method) stage,
    timestamp := now, internalDiary := none, isError := false, isProcessing := false,
    isApiKeyLog := true }

/-- The per-minion perception-failure diagnostic of `handleUserMessage`
(lines 256-259). -/
def perceptionErrorMessage (cid : String) (minion : MinionConfig) (now : Nat)
    (err : Option String) : ChatMessageData :=
  { id := "sys-err-" ++ minion.id ++ "-" ++ toString now, channelId := cid,
    senderType := .system, senderName := "System",
    content := "Error during " ++ (minion.name ++ ("\x27s perception stage: " ++ errText err)),
    timestamp := now, internalDiary := none, isError := true, isProcessing := false,
    isApiKeyLog := false }

/-- The per-minion silence notice of `handleUserMessage` (line 264). -/
def silentMessage (cid : String) (minion : MinionConfig) (now : Nat) : ChatMessageData :=
  { id := "sys-silent-" ++ minion.id ++ "-" ++ toString now, channelId := cid,
    senderType := .system, senderName := "System",
    content := minion.name ++ " chose to remain silent.",
    timestamp := now, internalDiary := none, isError := false, isProcessing := false,
    isApiKeyLog := false }

/-- The batch-level notice of `triggerNextAutoChatTurn` (line 340). -/
def allSilentMessage (cid : String) (now : Nat) : ChatMessageData :=
  { id := "sys-auto-silent-" ++ toString now, channelId := cid,
    senderType := .system, senderName := "System",
    content := "All minions chose to remain silent this turn.",
    timestamp := now, internalDiary := none, isError := false, isProcessing := false,
    isApiKeyLog := false }

/-- The two-minion guard diagnostic of `triggerNextAutoChatTurn` (line 307). -/
def autoPausedMessage (cid : String) (now : Nat) : ChatMessageData :=
  { id := "sys-auto-err-" ++ toString now, channelId := cid,
    senderType := .system, senderName := "System",
    content := "Auto-mode paused. Requires at least 2 minions in the channel.",
    timestamp := now, internalDiary := none, isError := false, isProcessing := false,
    isApiKeyLog := false }

/-- The id `ai-${minion.id}-${Date.now()}` of an in-progress response. -/
def aiMsgId (minionId : String) (now : Nat) : String :=
  "ai-" ++ (minionId ++ ("-" ++ toString now))

/-- The in-progress placeholder handed to `onMinionResponse` before response
generation (lines 279 and 350). -/
def placeholderMessage (cid : String) (minion : MinionConfig) (now : Nat) : ChatMessageData :=
  { id := aiMsgId minion.id now, channelId := cid, senderType := .ai,
    senderName := minion.name, content := "", timestamp := now, internalDiary := none,
    isError := false, isProcessing := true, isApiKeyLog := false }

/-- The error-finalized message of the response stage (lines 370 and 404);
`content` already carries the rendered error text. -/
def errorFinalMessage (cid mid : String) (minion : MinionConfig) (content : String)
    (now : Nat) : ChatMessageData :=
  { id := mid, channelId := cid, senderType := .ai, senderName := minion.name,
    content := content, timestamp := now, internalDiary := none, isError := true,
    isProcessing := false, isApiKeyLog := false }

/-- The successfully finalized message of the response stage (lines 384-387):
trimmed accumulated text, diary attached as provenance. -/
def finalAiMessage (cid mid : String) (minion : MinionConfig) (plan : PerceptionPlan)
    (chunks : List String) (now : Nat) : ChatMessageData :=
  { id := mid, channelId := cid, senderType := .ai, senderName := minion.name,
    content := (chunks.foldl (fun acc c => acc ++ c) "").trim, timestamp := now,
    internalDiary := some plan, isError := false, isProcessing := false,
    isApiKeyLog := false }

/-- Chunk events surfaced while streaming. -/
def chunkEvents (cid mid : String) (chunks : List String) : List Event :=
  chunks.map (Event.responseChunk cid mid)

/-- `runStreamingResponse` (lines 363-411).  Returns the new state, the
emitted events, and the list of minions for which `callGeminiAPIStream` was
actually invoked.  Note the error paths replace by id with `Array.map` (every
match) while the success path uses `findIndex` (first match) or pushes. -/
def runStreamingResponse (stream : MinionConfig → StreamOutcome) (cid mid : String)
    (minion : MinionConfig) (plan : PerceptionPlan) (keyInfo : SelectedKeyInfo)
    (now : Nat) (s : ServiceState) : ServiceState × List Event × List MinionConfig :=
  if keyInfo.key == "" then
    let errorMsg := errorFinalMessage cid mid minion
      "Error: No API key available for response generation." now
    (msgsSet s cid ((msgsGet s cid).map (fun m => if m.id == mid then errorMsg else m)),
      [Event.minionResponse errorMsg], [])
  else
    match stream minion with
    | .success chunks =>
      let finalMessage := finalAiMessage cid mid minion plan chunks now
      let s1 := updateMinionState minion.id plan s
      let existingMessages := msgsGet s1 cid
      let newList :=
        if existingMessages.any (fun m => m.id == mid) then
          updateFirstBy (fun m => m.id == mid) (fun _ => finalMessage) existingMessages
        else existingMessages ++ [finalMessage]
      (msgsSet s1 cid newList,
        chunkEvents cid mid chunks ++ [Event.minionResponse finalMessage], [minion])
    | .failure chunks errorMessage =>
      let errorMsg := errorFinalMessage cid mid minion ("Error: " ++ errorMessage) now
      (msgsSet s cid ((msgsGet s cid).map (fun m => if m.id == mid then errorMsg else m)),
        chunkEvents cid mid chunks ++ [Event.minionResponse errorMsg], [minion])

/-- The perception fan-out of `handleUserMessage` (lines 237-251): per minion,
select a credential, emit the audit entry, then either synthesize the no-key
outcome or consult the model.  Returns the settled `{minion, plan, error}`
results in minion order.  `none` models a thrown credential-selection
`TypeError`. -/
def perceptionHuman (perceive : MinionConfig → PerceptionOutcome) (cid : String)
    (now : Nat) :
    List MinionConfig → ServiceState →
    Option (List (MinionConfig × PerceptionOutcome) × ServiceState × List Event × List MinionConfig)
  | [], s => some ([], s, [], [])
  | minion :: rest, s =>
    match selectApiKey minion.apiKeyId s with
    | .crash _ => none
    | .ok keyInfo s1 =>
      let ev := Event.systemMessage (apiKeyLogMessage cid minion.name keyInfo "Perception" now)
      let outcome : PerceptionOutcome :=
        if keyInfo.key == "" then ⟨none, some "No API key available."⟩ else perceive minion
      let calls : List MinionConfig := if keyInfo.key == "" then [] else [minion]
      match perceptionHuman perceive cid now rest s1 with
      | none => none
      | some (results, s2, evs, trace) =>
        some ((minion, outcome) :: results, s2, ev :: evs, calls ++ trace)

/-- The result-processing loop of `handleUserMessage` (lines 252-265):
diagnose failures, commit successful plans into emotional state, collect the
SPEAK subset, notice the silent ones. -/
def processResults (cid : String) (now : Nat) :
    List (MinionConfig × PerceptionOutcome) → ServiceState →
    ServiceState × List Event × List (MinionConfig × PerceptionPlan)
  | [], s => (s, [], [])
  | (minion, o) :: rest, s =>
    match o.plan with
    | none =>
      let ev := Event.systemMessage (perceptionErrorMessage cid minion now o.error)
      let r := processResults cid now rest s
      (r.1, ev :: r.2.1, r.2.2)
    | some plan =>
      if errTruthy o.error then
        let ev := Event.systemMessage (perceptionErrorMessage cid minion now o.error)
        let r := processResults cid now rest s
        (r.1, ev :: r.2.1, r.2.2)
      else
        let s1 := updateMinionState minion.id plan s
        let r := processResults cid now rest s1
        if plan.action == PlanAction.speak then (r.1, r.2.1, (minion, plan) :: r.2.2)
        else (r.1, Event.systemMessage (silentMessage cid minion now) :: r.2.1, r.2.2)

/-- Lines 268-272: mark the non-speakers as no longer composing. -/
def speakersOffEvents (minions : List MinionConfig)
    (speakers : List (MinionConfig × PerceptionPlan)) : List Event :=
  minions.filterMap (fun m =>
    if speakers.any (fun sp => sp.1.id == m.id) then none
    else some (Event.processingUpdate m.name false))

/-- The sort comparator of lines 274 and 332:
`(a, b) => a.plan.predictedResponseTime - b.plan.predictedResponseTime`. -/
def speakerLe (a b : MinionConfig × PerceptionPlan) : Prop :=
  a.2.predictedResponseTime ≤ b.2.predictedResponseTime

instance : DecidableRel speakerLe := fun x y =>
  Int.decLe x.2.predictedResponseTime y.2.predictedResponseTime

instance : IsTotal (MinionConfig × PerceptionPlan) speakerLe :=
  ⟨fun x y => Int.le_total x.2.predictedResponseTime y.2.predictedResponseTime⟩

instance : IsTrans (MinionConfig × PerceptionPlan) speakerLe :=
  ⟨fun _ _ _ h h' => le_trans h h'⟩

/-- The sequential response loop of `handleUserMessage` (lines 277-291): for
each speaker in latency order, surface the placeholder, select a credential,
emit the audit entry, stream the response to completion, then clear the
composing flag.  (The `dynamicChatHistory` accumulator feeds only the prompt,
which the stream oracle abstracts.) -/
def respLoop (stream : MinionConfig → StreamOutcome) (cid : String) (now : Nat) :
    List (MinionConfig × PerceptionPlan) → ServiceState →
    Option (ServiceState × List Event × List MinionConfig)
  | [], s => some (s, [], [])
  | (minion, plan) :: rest, s =>
    let tempMsg := placeholderMessage cid minion now
    match selectApiKey minion.apiKeyId s with
    | .crash _ => none
    | .ok keyInfo s1 =>
      let evKey := Event.systemMessage (apiKeyLogMessage cid minion.name keyInfo "Response" now)
      match runStreamingResponse stream cid (aiMsgId minion.id now) minion plan keyInfo now s1 with
      | (s2, evStream, calls) =>
        match respLoop stream cid now rest s2 with
        | none => none
        | some (s3, evs, calls') =>
          some (s3,
            Event.minionResponse tempMsg :: evKey ::
              (evStream ++ Event.processingUpdate minion.name false :: evs),
            calls ++ calls')

/-- Everything one batch reports back: the final service state, the callback
trace, and which minions were actually sent to the model in each stage. -/
structure BatchResult where
  state : ServiceState
  events : List Event
  percCalls : List MinionConfig
  streamCalls : List MinionConfig
deriving DecidableEq, Repr

/-- Lines 231 and 305: the roster members of the active channel. -/
def minionsInChannel (s : ServiceState) (ch : Channel) : List MinionConfig :=
  s.minionConfigs.filter (fun m => ch.members.contains m.name)

/-- `handleUserMessage` (lines 221-293): the human-triggered batch. -/
def handleUserMessage (perceive : MinionConfig → PerceptionOutcome)
    (stream : MinionConfig → StreamOutcome) (now : Nat) (s : ServiceState)
    (cid : String) (userMessage : ChatMessageData) : Option BatchResult :=
  let s0 := msgsSet s cid (msgsGet s cid ++ [userMessage])
  match s0.channels.find? (fun c => c.id == cid) with
  | none => some ⟨s0, [], [], []⟩
  | some activeChannel =>
    if (minionsInChannel s0 activeChannel).length == 0 then some ⟨s0, [], [], []⟩
    else
      let evsOn := (minionsInChannel s0 activeChannel).map
        (fun m => Event.processingUpdate m.name true)
      match perceptionHuman perceive cid now (minionsInChannel s0 activeChannel) s0 with
      | none => none
      | some (results, s1, evsPerc, percCalls) =>
        match processResults cid now results s1 with
        | (s2, evsProc, speakers) =>
          let evsOff := speakersOffEvents (minionsInChannel s0 activeChannel) speakers
          let sorted := List.insertionSort speakerLe speakers
          match respLoop stream cid now sorted s2 with
          | none => none
          | some (s3, evsResp, streamCalls) =>
            some ⟨s3, evsOn ++ evsPerc ++ evsProc ++ evsOff ++ evsResp, percCalls, streamCalls⟩

/-- The synthesized outcome for the author of the triggering message
(line 319). -/
def selfOutcome : PerceptionOutcome := ⟨none, some "Cannot respond to self."⟩

/-- The perception fan-out of `triggerNextAutoChatTurn` (lines 318-327): like
the human one, but the author of the last message is excluded before any
credential selection or model call. -/
def perceptionAuto (perceive : MinionConfig → PerceptionOutcome) (cid : String)
    (lastSenderName : String) (now : Nat) :
    List MinionConfig → ServiceState →
    Option (List (MinionConfig × PerceptionOutcome) × ServiceState × List Event × List MinionConfig)
  | [], s => some ([], s, [], [])
  | minion :: rest, s =>
    if minion.name == lastSenderName then
      match perceptionAuto perceive cid lastSenderName now rest s with
      | none => none
      | some (results, s2, evs, trace) =>
        some ((minion, selfOutcome) :: results, s2, evs, trace)
    else
      match selectApiKey minion.apiKeyId s with
      | .crash _ => none
      | .ok keyInfo s1 =>
        let ev := Event.systemMessage (apiKeyLogMessage cid minion.name keyInfo "Perception" now)
        let outcome : PerceptionOutcome :=
          if keyInfo.key == "" then ⟨none, some "No API key available."⟩ else perceive minion
        let calls : List MinionConfig := if keyInfo.key == "" then [] else [minion]
        match perceptionAuto perceive cid lastSenderName now rest s1 with
        | none => none
        | some (results, s2, evs, trace) =>
          some ((minion, outcome) :: results, s2, ev :: evs, calls ++ trace)

/-- Lines 330-332: keep the results that carry a SPEAK plan (the `error`
field is not consulted here) and sort them by predicted latency. -/
def autoSpeakers (results : List (MinionConfig × PerceptionOutcome)) :
    List (MinionConfig × PerceptionPlan) :=
  List.insertionSort speakerLe (results.filterMap (fun r =>
    match r.2.plan with
    | some p => if p.action == PlanAction.speak then some (r.1, p) else none
    | none => none))

/-- `triggerNextAutoChatTurn` (lines 295-361): the autonomous batch; only the
single fastest eligible speaker responds. -/
def triggerNextAutoChatTurn (perceive : MinionConfig → PerceptionOutcome)
    (stream : MinionConfig → StreamOutcome) (now : Nat) (s : ServiceState)
    (cid : String) : Option BatchResult :=
  match s.channels.find? (fun c => c.id == cid) with
  | none => some ⟨s, [], [], []⟩
  | some activeChannel =>
    if !activeChannel.isAutoModeActive then some ⟨s, [], [], []⟩
    else
      if (minionsInChannel s activeChannel).length < 2 then
        some ⟨s, [Event.systemMessage (autoPausedMessage cid now)], [], []⟩
      else
        match (msgsGet s cid).getLast? with
        | none => some ⟨s, [], [], []⟩
        | some lastMessage =>
          let evsOn := (minionsInChannel s activeChannel).map
            (fun m => Event.processingUpdate m.name true)
          match perceptionAuto perceive cid lastMessage.senderName now
              (minionsInChannel s activeChannel) s with
          | none => none
          | some (results, s1, evsPerc, percCalls) =>
            let evsOff := (minionsInChannel s activeChannel).map
              (fun m => Event.processingUpdate m.name false)
            match autoSpeakers results with
            | [] =>
              some ⟨s1,
                evsOn ++ evsPerc ++ evsOff ++
                  [Event.systemMessage (allSilentMessage cid now)],
                percCalls, []⟩
            | (minion, plan) :: _ =>
              let tempMsg := placeholderMessage cid minion now
              match selectApiKey minion.apiKeyId s1 with
              | .crash _ => none
              | .ok keyInfo s2 =>
                match runStreamingResponse stream cid (aiMsgId minion.id now) minion plan keyInfo now s2 with
                | (s3, evStream, calls) =>
                  some ⟨s3,
                    evsOn ++ evsPerc ++ evsOff ++
                      (Event.processingUpdate minion.name true ::
                        Event.minionResponse tempMsg ::
                        Event.systemMessage (apiKeyLogMessage cid minion.name keyInfo "Response" now) ::
                        evStream) ++
                      [Event.processingUpdate minion.name false],
                    percCalls, calls⟩

/-! ## Derived notions used in the theorem statements -/

/-- The projection `handleUserMessage` uses to build its SPEAK set: a settled
result enters it when a plan is present, the error field is falsy, and the
plan chose SPEAK. -/
def speakProj (r : MinionConfig × PerceptionOutcome) :
    Option (MinionConfig × PerceptionPlan) :=
  match r.2.plan with
  | none => none
  | some p =>
    if errTruthy r.2.error then none
    else if p.action == PlanAction.speak then some (r.1, p) else none

/-- The SPEAK set of a human batch in which every minion obtained a usable
credential, expressed from the batch inputs. -/
def humanSpeakSet (perceive : MinionConfig → PerceptionOutcome) (s : ServiceState)
    (ch : Channel) : List (MinionConfig × PerceptionPlan) :=
  (minionsInChannel s ch).filterMap (fun m => speakProj (m, perceive m))

/-- The predicted latency attached (as diary provenance) to a finalized
response message. -/
def diaryTime (m : ChatMessageData) : Int :=
  match m.internalDiary with
  | some p => p.predictedResponseTime
  | none => 0

/-- The transcript additions a speaker list produces when every speaker holds
a usable credential: one finalized message per successfully streamed speaker,
in speaker order. -/
def respAdditions (stream : MinionConfig → StreamOutcome) (now : Nat) (cid : String)
    (speakers : List (MinionConfig × PerceptionPlan)) : List ChatMessageData :=
  speakers.filterMap (fun sp =>
    match stream sp.1 with
    | .success chunks => some (finalAiMessage cid (aiMsgId sp.1.id now) sp.1 sp.2 chunks now)
    | .failure _ _ => none)

/-- Recognizes the batch-level "all silent" notice among emitted events. -/
def isAllSilentEvent : Event → Bool
  | .systemMessage m => m.content == "All minions chose to remain silent this turn."
  | _ => false

/-- A credential-pool state in which every selection succeeds with a usable
key: the cursor is inside the pool and no pooled secret is blank. -/
def goodKeys (s : ServiceState) : Prop :=
  s.apiKeyRoundRobinIndex < s.apiKeys.length ∧ ∀ k ∈ s.apiKeys, k.key ≠ ""

instance (s : ServiceState) : Decidable (goodKeys s) := by
  unfold goodKeys; infer_instance

/-- All minions of the state with the given id already carry the given plan's
emotional state (the committed-state invariant threaded through a batch). -/
def configsOK (l : List MinionConfig) (minionId : String) (plan : PerceptionPlan) : Prop :=
  ∀ m ∈ l, m.id = minionId →
    m.opinionScores = plan.finalOpinions ∧ m.lastDiaryState = some plan

/-! # Theorems

First the generic helper lemmas about the association-list model, then the
per-claim results. -/

theorem alistGet?_set {α : Type} (l : List (String × α)) (k k' : String) (v : α) :
    alistGet? (alistSet l k v) k' = if k = k' then some v else alistGet? l k' := by
  induction l with
  | nil => simp [alistSet, alistGet?, beq_iff_eq]
  | cons p rest ih =>
    simp only [alistSet]
    by_cases h1 : p.1 = k
    · simp only [h1, beq_self_eq_true, if_true, alistGet?]
      by_cases h2 : k = k' <;> simp [beq_iff_eq, h1, h2]
    · have h1' : (p.1 == k) = false := by simp [beq_iff_eq, h1]
      simp only [h1', Bool.false_eq_true, if_false, alistGet?]
      by_cases hp : p.1 = k'
      · have h3 : ¬ k = k' := fun he => h1 (hp.trans he.symm)
        simp [beq_iff_eq, hp, h3]
      · simp [beq_iff_eq, hp, ih]

theorem alistGet?_remove {α : Type} (l : List (String × α)) (k k' : String) :
    alistGet? (alistRemove l k) k' = if k' = k then none else alistGet? l k' := by
  induction l with
  | nil => simp [alistRemove, alistGet?]
  | cons p rest ih =>
    simp only [alistRemove]
    by_cases h1 : p.1 = k
    · simp only [h1, beq_self_eq_true, if_true, ih]
      by_cases h2 : k' = k
      · simp [h2]
      · have hne : ¬ p.1 = k' := fun he => h2 ((h1.symm.trans he).symm)
        simp [beq_iff_eq, alistGet?, h2, hne]
    · have h1' : (p.1 == k) = false := by simp [beq_iff_eq, h1]
      simp only [h1', Bool.false_eq_true, if_false, alistGet?]
      by_cases hp : p.1 = k'
      · have h3 : ¬ k' = k := fun he => h1 (hp.trans he)
        simp [beq_iff_eq, hp, h3]
      · simp [beq_iff_eq, hp, ih]

/-- The timestamped side key never collides with the original key. -/
theorem corruptedKey_ne (key : String) (now : Nat) :
    key ++ "_corrupted_" ++ toString now ≠ key := by
  intro h
  have hlen := congrArg String.length h
  simp only [String.length_append] at hlen
  have h11 : "_corrupted_".length = 11 := by decide
  omega

/-- C8, counterexample: the stored value `"undefined"` is present and does not
parse (in JavaScript, `JSON.parse('undefined')` throws, which the stub parser
mirrors), yet `getStoredData` returns the default while leaving the store
untouched: the original entry is not removed and nothing is preserved under
the timestamped side key, contradicting the claim's quarantine requirement. -/
theorem C8_counterexample :
    alistGet? [("cfg", "undefined")] "cfg" = some "undefined" ∧
    (fun x => if x == "42" then some (42 : Nat) else none) "undefined" = none ∧
    getStoredData (fun x => if x == "42" then some (42 : Nat) else none) 7
        [("cfg", "undefined")] "cfg" 0 = (0, [("cfg", "undefined")]) ∧
    alistGet? (getStoredData (fun x => if x == "42" then some (42 : Nat) else none) 7
        [("cfg", "undefined")] "cfg" 0).2 "cfg_corrupted_7" = none ∧
    alistGet? (getStoredData (fun x => if x == "42" then some (42 : Nat) else none) 7
        [("cfg", "undefined")] "cfg" 0).2 "cfg" = some "undefined" := by
  refine ⟨rfl, rfl, rfl, rfl, rfl⟩

/-- C8 (amended): for a stored value other than the literal string
`"undefined"`, load returns the parsed value when it parses; when it does not
parse, the raw value is preserved under the side key `key ++ "_corrupted_" ++
timestamp`, the original entry is removed, and the supplied default is
returned (the function is total, so nothing is thrown).  The literal
`"undefined"` is instead treated as absent: the default is returned and the
store is untouched. -/
theorem C8_load_quarantine {T : Type} (parse : String → Option T) (now : Nat)
    (store : List (String × String)) (key : String) (dflt : T) (saved : String)
    (hsaved : alistGet? store key = some saved) :
    (saved ≠ "undefined" →
      (∀ v, parse saved = some v → getStoredData parse now store key dflt = (v, store)) ∧
      (parse saved = none →
        (getStoredData parse now store key dflt).1 = dflt ∧
        alistGet? (getStoredData parse now store key dflt).2
          (key ++ "_corrupted_" ++ toString now) = some saved ∧
        alistGet? (getStoredData parse now store key dflt).2 key = none)) ∧
    (saved = "undefined" → getStoredData parse now store key dflt = (dflt, store)) := by
  constructor
  · intro hne
    have hne' : (saved == "undefined") = false := by simp [beq_iff_eq, hne]
    constructor
    · intro v hv
      simp [getStoredData, hsaved, hne', hv]
    · intro hv
      have hkey := corruptedKey_ne key now
      simp only [getStoredData, hsaved, hne', Bool.false_eq_true, if_false, hv]
      refine ⟨trivial, ?_, ?_⟩
      · rw [alistGet?_remove]
        simp only [if_neg hkey]
        rw [alistGet?_set]
        simp
      · rw [alistGet?_remove]
        simp
  · intro he
    subst he
    simp [getStoredData, hsaved]

/-- C8 witness: the amended theorem applied to a concrete corrupted store. -/
theorem C8_load_quarantine_witness :
    alistGet? [("cfg", "boom")] "cfg" = some "boom" ∧
    ((getStoredData (fun x => if x == "42" then some (42 : Nat) else none) 7
        [("cfg", "boom")] "cfg" 0).1 = 0 ∧
      alistGet? (getStoredData (fun x => if x == "42" then some (42 : Nat) else none) 7
        [("cfg", "boom")] "cfg" 0).2 ("cfg" ++ "_corrupted_" ++ toString 7) = some "boom" ∧
      alistGet? (getStoredData (fun x => if x == "42" then some (42 : Nat) else none) 7
        [("cfg", "boom")] "cfg" 0).2 "cfg" = none) :=
  ⟨by decide,
    ((C8_load_quarantine (fun x => if x == "42" then some (42 : Nat) else none) 7
      [("cfg", "boom")] "cfg" 0 "boom" (by decide)).1 (by decide)).2 (by decide)⟩

/-- C10: a pinned agent whose pin matches a pooled credential gets exactly
that credential tagged `Assigned` with the whole service state (in particular
the round-robin cursor) unchanged; a pin matching no pooled credential
behaves exactly as no pin at all.  (Credential ids minted by `addApiKey` are
never empty, hence the non-blank hypothesis on the matching pin.) -/
theorem C10_pinned_selection (s : ServiceState) (p : String) :
    (∀ cred, p ≠ "" → s.apiKeys.find? (fun k => k.id == p) = some cred →
      selectApiKey (some p) s = .ok ⟨cred.key, cred.name, .assigned⟩ s) ∧
    ((∀ k ∈ s.apiKeys, k.id ≠ p) → selectApiKey (some p) s = selectApiKey none s) := by
  constructor
  · intro cred hp hfind
    have hp' : (p == "") = false := by simp [beq_iff_eq, hp]
    simp [selectApiKey, hp', hfind]
  · intro hnone
    have hfind : s.apiKeys.find? (fun k => k.id == p) = none := by
      rw [List.find?_eq_none]
      intro k hk
      simp [beq_iff_eq, hnone k hk]
    by_cases hp : p = ""
    · simp [selectApiKey, hp]
    · have hp' : (p == "") = false := by simp [beq_iff_eq, hp]
      simp [selectApiKey, hp', hfind]

/-- C10 witness: a two-credential pool with cursor 1; the pinned selection
returns the pinned credential and leaves the state alone, and a dangling pin
selects exactly as an unpinned agent. -/
theorem C10_pinned_selection_witness :
    selectApiKey (some "key-1")
        ⟨[], [], [], [⟨"key-1", "A", "ka"⟩, ⟨"key-2", "B", "kb"⟩], 1⟩ =
      .ok ⟨"ka", "A", .assigned⟩
        ⟨[], [], [], [⟨"key-1", "A", "ka"⟩, ⟨"key-2", "B", "kb"⟩], 1⟩ ∧
    selectApiKey (some "zz")
        ⟨[], [], [], [⟨"key-1", "A", "ka"⟩, ⟨"key-2", "B", "kb"⟩], 1⟩ =
      selectApiKey none
        ⟨[], [], [], [⟨"key-1", "A", "ka"⟩, ⟨"key-2", "B", "kb"⟩], 1⟩ :=
  ⟨(C10_pinned_selection
      ⟨[], [], [], [⟨"key-1", "A", "ka"⟩, ⟨"key-2", "B", "kb"⟩], 1⟩ "key-1").1
      ⟨"key-1", "A", "ka"⟩ (by decide) (by decide),
    (C10_pinned_selection
      ⟨[], [], [], [⟨"key-1", "A", "ka"⟩, ⟨"key-2", "B", "kb"⟩], 1⟩ "zz").2
      (by decide)⟩

/-- Replacing by message id is the identity when no stored message has the
id. -/
theorem map_replace_not_found (l : List ChatMessageData) (mid : String)
    (g : ChatMessageData → ChatMessageData)
    (h : ∀ m ∈ l, (m.id == mid) = false) :
    l.map (fun m => if m.id == mid then g m else m) = l := by
  induction l with
  | nil => rfl
  | cons x rest ih =>
    simp only [List.map_cons, h x (List.mem_cons_self x rest), Bool.false_eq_true, if_false,
      List.cons.injEq, true_and]
    exact ih (fun m hm => h m (List.mem_cons_of_mem x hm))

/-- C6, counterexample: `deleteMinion` on an id that matches no minion
resolves successfully with the state untouched — a silent no-op where the
claim requires a synchronously surfaced NotFound failure. -/
theorem C6_counterexample :
    deleteMinion "ghost" ⟨[], [], [], [], 0⟩ = .ok ⟨[], [], [], [], 0⟩ := by
  rfl

/-- C6 (amended): `updateMinion` and `updateChannel` on an unknown id throw
synchronously; but `deleteMinion` on an unknown minion id, and
`deleteMessage`/`editMessage` on an unknown message id, resolve successfully
as no-ops (the channel's stored message list is written back unchanged). -/
theorem C6_missing_entity_behavior :
    (∀ (cfg : MinionConfig) (s : ServiceState),
      (s.minionConfigs.any (fun m => m.id == cfg.id)) = false →
      updateMinion cfg s = .error "Minion not found for update.") ∧
    (∀ (ch : Channel) (s : ServiceState),
      (s.channels.any (fun c => c.id == ch.id)) = false →
      updateChannel ch s = .error "Channel not found for update.") ∧
    (∀ (id : String) (s : ServiceState),
      s.minionConfigs.find? (fun m => m.id == id) = none →
      deleteMinion id s = .ok s) ∧
    (∀ (cid mid : String) (s : ServiceState),
      (∀ m ∈ msgsGet s cid, (m.id == mid) = false) →
      deleteMessage cid mid s = .ok (msgsSet s cid (msgsGet s cid))) ∧
    (∀ (cid mid newContent : String) (s : ServiceState),
      (∀ m ∈ msgsGet s cid, (m.id == mid) = false) →
      editMessage cid mid newContent s = .ok (msgsSet s cid (msgsGet s cid))) := by
  refine ⟨?_, ?_, ?_, ?_, ?_⟩
  · intro cfg s h
    simp [updateMinion, h]
  · intro ch s h
    simp [updateChannel, h]
  · intro id s h
    simp [deleteMinion, h]
  · intro cid mid s h
    have hf : (msgsGet s cid).filter (fun m => !(m.id == mid)) = msgsGet s cid := by
      rw [List.filter_eq_self]
      intro m hm
      simp [h m hm]
    simp [deleteMessage, hf]
  · intro cid mid newContent s h
    have hm := map_replace_not_found (msgsGet s cid) mid
      (fun m => { m with content := newContent }) h
    simp only [editMessage, hm]

/-- C6 witness: the amended behaviour at concrete missing ids. -/
theorem C6_missing_entity_witness :
    updateMinion ⟨"m9", "Nix", "g", "p", 1, none, [], none, none⟩ ⟨[], [], [], [], 0⟩ =
      .error "Minion not found for update." ∧
    updateChannel ⟨"c9", "#x", "", .user_minion_group, [], false⟩ ⟨[], [], [], [], 0⟩ =
      .error "Channel not found for update." ∧
    deleteMinion "m9" ⟨[], [], [], [], 0⟩ = .ok ⟨[], [], [], [], 0⟩ ∧
    deleteMessage "general" "msg9" ⟨[], [], [], [], 0⟩ =
      .ok (msgsSet ⟨[], [], [], [], 0⟩ "general" (msgsGet ⟨[], [], [], [], 0⟩ "general")) ∧
    editMessage "general" "msg9" "hi" ⟨[], [], [], [], 0⟩ =
      .ok (msgsSet ⟨[], [], [], [], 0⟩ "general" (msgsGet ⟨[], [], [], [], 0⟩ "general")) :=
  ⟨C6_missing_entity_behavior.1 _ _ (by decide),
    C6_missing_entity_behavior.2.1 _ _ (by decide),
    C6_missing_entity_behavior.2.2.1 "m9" _ (by decide),
    C6_missing_entity_behavior.2.2.2.1 "general" "msg9" _ (by decide),
    C6_missing_entity_behavior.2.2.2.2 "general" "msg9" "hi" _ (by decide)⟩

/-- Reading back the fold that seeds a fresh minion's opinion map: any name
set during the fold reads 50, anything else falls through to the seed. -/
theorem alistGet?_foldl_set (L : List MinionConfig) (init : List (String × Int))
    (k : String) :
    alistGet? (L.foldl (fun acc m => alistSet acc m.name 50) init) k =
      if L.any (fun m => m.name == k) then some 50 else alistGet? init k := by
  induction L generalizing init with
  | nil => simp
  | cons m rest ih =>
    simp only [List.foldl_cons, List.any_cons, ih, alistGet?_set]
    by_cases h1 : m.name = k
    · simp [h1]
    · have h1' : (m.name == k) = false := by simp [beq_iff_eq, h1]
      simp [h1', h1]

/-- C7: after `addMinion`, the stored roster is exactly the previous minions
each given an opinion entry of 50 for the newcomer, followed by the newcomer,
whose own map reads 50 for the commander and 50 for every previously-existing
minion, and whose diary starts null. -/
theorem C7_addMinion_seeds_opinions (config : MinionConfig) (now : Nat)
    (s : ServiceState) :
    (addMinion config now s).2.minionConfigs =
      (s.minionConfigs.map (fun m =>
        { m with opinionScores := alistSet m.opinionScores config.name 50 }))
        ++ [(addMinion config now s).1] ∧
    (∀ m ∈ s.minionConfigs,
      alistGet? (alistSet m.opinionScores config.name 50) config.name = some 50) ∧
    alistGet? (addMinion config now s).1.opinionScores LEGION_COMMANDER_NAME = some 50 ∧
    (∀ m ∈ s.minionConfigs,
      alistGet? (addMinion config now s).1.opinionScores m.name = some 50) ∧
    (addMinion config now s).1.lastDiaryState = none := by
  refine ⟨rfl, ?_, ?_, ?_, rfl⟩
  · intro m _
    simp [alistGet?_set]
  · show alistGet?
      (s.minionConfigs.foldl (fun acc m => alistSet acc m.name 50)
        (alistSet [] LEGION_COMMANDER_NAME 50)) LEGION_COMMANDER_NAME = some 50
    rw [alistGet?_foldl_set]
    by_cases h : s.minionConfigs.any (fun m => m.name == LEGION_COMMANDER_NAME)
    · simp [h]
    · simp only [h, Bool.false_eq_true, if_false] at *
      simp [alistGet?_set]
  · intro m hm
    show alistGet?
      (s.minionConfigs.foldl (fun acc m => alistSet acc m.name 50)
        (alistSet [] LEGION_COMMANDER_NAME 50)) m.name = some 50
    rw [alistGet?_foldl_set]
    have : s.minionConfigs.any (fun x => x.name == m.name) = true := by
      rw [List.any_eq_true]
      exact ⟨m, hm, by simp⟩
    simp [this]

/-- C7 witness: adding "Charlie" to a roster holding "Alpha". -/
theorem C7_addMinion_witness :
    (∀ m ∈ [(⟨"m1", "Alpha", "g", "p", 1, none, [("Steven", 60)], none, none⟩ : MinionConfig)],
      alistGet? (addMinion ⟨"", "Charlie", "g", "p", 1, none, [], none, none⟩ 5
        ⟨[⟨"m1", "Alpha", "g", "p", 1, none, [("Steven", 60)], none, none⟩], [], [], [], 0⟩).1.opinionScores
        m.name = some 50) ∧
    alistGet? (addMinion ⟨"", "Charlie", "g", "p", 1, none, [], none, none⟩ 5
      ⟨[⟨"m1", "Alpha", "g", "p", 1, none, [("Steven", 60)], none, none⟩], [], [], [], 0⟩).1.opinionScores
      LEGION_COMMANDER_NAME = some 50 :=
  ⟨(C7_addMinion_seeds_opinions ⟨"", "Charlie", "g", "p", 1, none, [], none, none⟩ 5
      ⟨[⟨"m1", "Alpha", "g", "p", 1, none, [("Steven", 60)], none, none⟩], [], [], [], 0⟩).2.2.2.1,
    (C7_addMinion_seeds_opinions ⟨"", "Charlie", "g", "p", 1, none, [], none, none⟩ 5
      ⟨[⟨"m1", "Alpha", "g", "p", 1, none, [("Steven", 60)], none, none⟩], [], [], [], 0⟩).2.2.1⟩

/-- One unpinned selection with the cursor inside the pool: returns the
credential at the cursor and advances the cursor by one modulo the pool
size. -/
theorem selectApiKey_none_ok (s : ServiceState)
    (h : s.apiKeyRoundRobinIndex < s.apiKeys.length) :
    ∃ a, s.apiKeys[s.apiKeyRoundRobinIndex]? = some a ∧
      selectApiKey none s = .ok (rrInfo a)
        { s with apiKeyRoundRobinIndex :=
            (s.apiKeyRoundRobinIndex + 1) % s.apiKeys.length } := by
  have hlen : 0 < s.apiKeys.length := Nat.lt_of_le_of_lt (Nat.zero_le _) h
  have hget : s.apiKeys[s.apiKeyRoundRobinIndex]? =
      some (s.apiKeys.get ⟨s.apiKeyRoundRobinIndex, h⟩) := List.getElem?_eq_getElem h
  exact ⟨_, hget, by simp [selectApiKey, hlen, hget, rrInfo]⟩

/-- The shape of `n` consecutive unpinned selections from a cursor inside the
pool: nothing throws, the `i`-th call returns the credential at cursor
`(c₀ + i) mod k`, and afterwards the cursor sits at `(c₀ + n) mod k`. -/
theorem selectSeq_spec (n : Nat) (s : ServiceState)
    (h : s.apiKeyRoundRobinIndex < s.apiKeys.length) :
    ∃ l, selectSeq n s = some (l,
        { s with apiKeyRoundRobinIndex :=
            (s.apiKeyRoundRobinIndex + n) % s.apiKeys.length }) ∧
      l.length = n ∧
      ∀ i, i < n → l[i]? =
        (s.apiKeys[(s.apiKeyRoundRobinIndex + i) % s.apiKeys.length]?).map rrInfo := by
  induction n generalizing s with
  | zero =>
    refine ⟨[], ?_, rfl, by omega⟩
    have : (s.apiKeyRoundRobinIndex + 0) % s.apiKeys.length = s.apiKeyRoundRobinIndex := by
      simpa using Nat.mod_eq_of_lt h
    rw [this]
    rfl
  | succ n ih =>
    have hlen : 0 < s.apiKeys.length := Nat.lt_of_le_of_lt (Nat.zero_le _) h
    obtain ⟨a, hget, hsel⟩ := selectApiKey_none_ok s h
    set s' : ServiceState :=
      { s with apiKeyRoundRobinIndex :=
          (s.apiKeyRoundRobinIndex + 1) % s.apiKeys.length } with hs'
    have h' : s'.apiKeyRoundRobinIndex < s'.apiKeys.length := Nat.mod_lt _ hlen
    obtain ⟨l', hseq', hlen', hget'⟩ := ih s' h'
    refine ⟨rrInfo a :: l', ?_, by simp [hlen'], ?_⟩
    · have hfinal :
          ({ s' with apiKeyRoundRobinIndex :=
              (s'.apiKeyRoundRobinIndex + n) % s'.apiKeys.length } : ServiceState) =
          { s with apiKeyRoundRobinIndex :=
              (s.apiKeyRoundRobinIndex + (n + 1)) % s.apiKeys.length } := by
        simp only [hs']
        congr 1
        rw [Nat.mod_add_mod]
        congr 1
        omega
      simp only [selectSeq, hsel, hseq', hfinal]
    · intro i hi
      match i with
      | 0 =>
        have hmod : s.apiKeyRoundRobinIndex % s.apiKeys.length =
            s.apiKeyRoundRobinIndex := Nat.mod_eq_of_lt h
        simp [hmod, hget]
      | Nat.succ j =>
        have hj : j < n := by omega
        have := hget' j hj
        simp only [List.getElem?_cons_succ, this, hs']
        congr 2
        rw [Nat.mod_add_mod]
        congr 1
        omega

/-- C3, counterexample: the cursor can legitimately point outside the pool
(`deleteApiKey` shrinks the pool without clamping it).  Reaching such a state
from a two-credential pool (as minted by two `addApiKey` calls): select once
(cursor moves to 1), delete the first credential.  The pool now holds k = 1
credential with the cursor at 1, and the single "consecutive call" the claim
promises will return that credential instead throws (`selectSeq 1 = none`),
with the cursor advanced to 0 before the throw. -/
theorem C3_counterexample :
    selectApiKey none ⟨[], [], [], [⟨"key-1", "A", "ka"⟩, ⟨"key-2", "B", "kb"⟩], 0⟩ =
      .ok ⟨"ka", "A", .loadBalanced⟩
        ⟨[], [], [], [⟨"key-1", "A", "ka"⟩, ⟨"key-2", "B", "kb"⟩], 1⟩ ∧
    deleteApiKey "key-1" ⟨[], [], [], [⟨"key-1", "A", "ka"⟩, ⟨"key-2", "B", "kb"⟩], 1⟩ =
      ⟨[], [], [], [⟨"key-2", "B", "kb"⟩], 1⟩ ∧
    (⟨[], [], [], [⟨"key-2", "B", "kb"⟩], 1⟩ : ServiceState).apiKeys.length = 1 ∧
    selectSeq 1 ⟨[], [], [], [⟨"key-2", "B", "kb"⟩], 1⟩ = none ∧
    selectApiKey none ⟨[], [], [], [⟨"key-2", "B", "kb"⟩], 1⟩ =
      .crash ⟨[], [], [], [⟨"key-2", "B", "kb"⟩], 0⟩ := by
  refine ⟨rfl, rfl, rfl, rfl, rfl⟩

/-- C3 (amended): for every pool state whose cursor lies inside the pool
(`cursor < k`), `k` consecutive unpinned selections return every pooled
credential exactly once — the rotation of the pool starting at the cursor,
each tagged `Load Balanced` — and every call advances the cursor by one
modulo `k`, so after `k` calls the cursor is back where it started. -/
theorem C3_roundRobin_cycle (s : ServiceState)
    (hc : s.apiKeyRoundRobinIndex < s.apiKeys.length) :
    selectSeq s.apiKeys.length s =
      some ((s.apiKeys.rotate s.apiKeyRoundRobinIndex).map rrInfo, s) ∧
    ((s.apiKeys.rotate s.apiKeyRoundRobinIndex).map rrInfo).Perm
      (s.apiKeys.map rrInfo) ∧
    (∀ n, ∃ l, selectSeq n s = some (l,
      { s with apiKeyRoundRobinIndex :=
          (s.apiKeyRoundRobinIndex + n) % s.apiKeys.length })) := by
  have hlen : 0 < s.apiKeys.length := Nat.lt_of_le_of_lt (Nat.zero_le _) hc
  obtain ⟨l, hseq, hl, hget⟩ := selectSeq_spec s.apiKeys.length s hc
  refine ⟨?_, (List.rotate_perm _ _).map rrInfo, ?_⟩
  · have hcycle : (s.apiKeyRoundRobinIndex + s.apiKeys.length) % s.apiKeys.length =
        s.apiKeyRoundRobinIndex := by
      rw [Nat.add_mod_right]
      exact Nat.mod_eq_of_lt hc
    have hstate : ({ s with apiKeyRoundRobinIndex :=
        (s.apiKeyRoundRobinIndex + s.apiKeys.length) % s.apiKeys.length } : ServiceState) = s := by
      rw [hcycle]
    have hlist : l = (s.apiKeys.rotate s.apiKeyRoundRobinIndex).map rrInfo := by
      apply List.ext_getElem?
      intro i
      by_cases hi : i < s.apiKeys.length
      · rw [hget i hi]
        rw [List.getElem?_map]
        rw [List.getElem?_rotate hi]
        rw [Nat.add_comm i s.apiKeyRoundRobinIndex]
      · have h1 : l.length ≤ i := by omega
        have h2 : ((s.apiKeys.rotate s.apiKeyRoundRobinIndex).map rrInfo).length ≤ i := by
          simp [List.length_rotate]
          omega
        rw [List.getElem?_eq_none h1, List.getElem?_eq_none h2]
    rw [← hlist, hseq, hstate]
  · intro n
    obtain ⟨l', hseq', _, _⟩ := selectSeq_spec n s hc
    exact ⟨l', hseq'⟩

/-- C3 witness: a two-credential pool with the cursor at 1; two consecutive
selections return credential 2 then credential 1 and restore the cursor. -/
theorem C3_roundRobin_witness :
    selectSeq 2 ⟨[], [], [], [⟨"key-1", "A", "ka"⟩, ⟨"key-2", "B", "kb"⟩], 1⟩ =
      some ([⟨"kb", "B", .loadBalanced⟩, ⟨"ka", "A", .loadBalanced⟩],
        ⟨[], [], [], [⟨"key-1", "A", "ka"⟩, ⟨"key-2", "B", "kb"⟩], 1⟩) :=
  (C3_roundRobin_cycle
    ⟨[], [], [], [⟨"key-1", "A", "ka"⟩, ⟨"key-2", "B", "kb"⟩], 1⟩ (by decide)).1

/-! ## Helper lemmas for the batch pipeline -/

theorem msgsGet_msgsSet_self (s : ServiceState) (cid : String) (l : List ChatMessageData) :
    msgsGet (msgsSet s cid l) cid = l := by
  simp [msgsGet, msgsSet, alistGet?_set]

theorem aiMsgId_inj {a b : String} {n : Nat} (h : aiMsgId a n = aiMsgId b n) : a = b := by
  unfold aiMsgId at h
  have hd := congrArg String.data h
  simp only [String.data_append] at hd
  have h1 : a.data ++ ("-".data ++ (toString n).data) =
      b.data ++ ("-".data ++ (toString n).data) := List.append_cancel_left hd
  have h2 : a.data = b.data := List.append_cancel_right h1
  cases a; cases b; exact congrArg String.mk h2

/-- Under `goodKeys`, a selection never throws, returns a non-blank key, and
only ever moves the round-robin cursor. -/
theorem selectApiKey_good (pin : Option String) (s : ServiceState) (hg : goodKeys s) :
    ∃ info s', selectApiKey pin s = .ok info s' ∧ info.key ≠ "" ∧
      s'.minionConfigs = s.minionConfigs ∧ s'.channels = s.channels ∧
      s'.messages = s.messages ∧ s'.apiKeys = s.apiKeys ∧ goodKeys s' := by
  obtain ⟨hc, hkeys⟩ := hg
  have hlen : 0 < s.apiKeys.length := Nat.lt_of_le_of_lt (Nat.zero_le _) hc
  have hget : s.apiKeys[s.apiKeyRoundRobinIndex]? =
      some (s.apiKeys.get ⟨s.apiKeyRoundRobinIndex, hc⟩) := List.getElem?_eq_getElem hc
  have hmem : s.apiKeys.get ⟨s.apiKeyRoundRobinIndex, hc⟩ ∈ s.apiKeys := List.getElem_mem hc
  have hrrkey : (s.apiKeys.get ⟨s.apiKeyRoundRobinIndex, hc⟩).key ≠ "" := hkeys _ hmem
  have hgood' : goodKeys { s with apiKeyRoundRobinIndex :=
      (s.apiKeyRoundRobinIndex + 1) % s.apiKeys.length } :=
    ⟨Nat.mod_lt _ hlen, hkeys⟩
  match pin with
  | none =>
    refine ⟨rrInfo (s.apiKeys.get ⟨s.apiKeyRoundRobinIndex, hc⟩),
      { s with apiKeyRoundRobinIndex := (s.apiKeyRoundRobinIndex + 1) % s.apiKeys.length },
      ?_, hrrkey, rfl, rfl, rfl, rfl, hgood'⟩
    simp [selectApiKey, hlen, hget, rrInfo]
  | some p =>
    by_cases hp : p = ""
    · refine ⟨rrInfo (s.apiKeys.get ⟨s.apiKeyRoundRobinIndex, hc⟩),
        { s with apiKeyRoundRobinIndex := (s.apiKeyRoundRobinIndex + 1) % s.apiKeys.length },
        ?_, hrrkey, rfl, rfl, rfl, rfl, hgood'⟩
      simp [selectApiKey, hp, hlen, hget, rrInfo]
    · have hp' : (p == "") = false := by simp [beq_iff_eq, hp]
      match hfind : s.apiKeys.find? (fun k => k.id == p) with
      | some cred =>
        have hcmem : cred ∈ s.apiKeys := List.mem_of_find?_eq_some hfind
        refine ⟨⟨cred.key, cred.name, .assigned⟩, s, ?_, hkeys _ hcmem, rfl, rfl, rfl, rfl,
          hc, hkeys⟩
        simp [selectApiKey, hp', hfind]
      | none =>
        refine ⟨rrInfo (s.apiKeys.get ⟨s.apiKeyRoundRobinIndex, hc⟩),
          { s with apiKeyRoundRobinIndex := (s.apiKeyRoundRobinIndex + 1) % s.apiKeys.length },
          ?_, hrrkey, rfl, rfl, rfl, rfl, hgood'⟩
        simp [selectApiKey, hp', hfind, hlen, hget, rrInfo]

theorem updateFirstBy_map_of_comm {α β : Type} (p : α → Bool) (f : α → α) (g : α → β)
    (hg : ∀ x, g (f x) = g x) :
    ∀ l : List α, (updateFirstBy p f l).map g = l.map g := by
  intro l
  induction l with
  | nil => rfl
  | cons x rest ih =>
    by_cases hx : p x = true
    · simp [updateFirstBy, hx, hg]
    · simp only [Bool.not_eq_true] at hx
      simp [updateFirstBy, hx, ih]

theorem updateFirstBy_mem {α : Type} (p : α → Bool) (f : α → α) :
    ∀ (l : List α), ∀ y ∈ updateFirstBy p f l, y ∈ l ∨ ∃ x, x ∈ l ∧ p x = true ∧ y = f x := by
  intro l
  induction l with
  | nil => intro y hy; cases hy
  | cons x rest ih =>
    intro y hy
    by_cases hx : p x = true
    · simp only [updateFirstBy, hx, if_true] at hy
      rcases List.mem_cons.mp hy with h1 | h1
      · exact Or.inr ⟨x, List.mem_cons_self x rest, hx, h1⟩
      · exact Or.inl (List.mem_cons_of_mem x h1)
    · simp only [Bool.not_eq_true] at hx
      simp only [updateFirstBy, hx, Bool.false_eq_true, if_false] at hy
      rcases List.mem_cons.mp hy with h1 | h1
      · exact Or.inl (h1 ▸ List.mem_cons_self x rest)
      · rcases ih y h1 with h2 | ⟨z, hz1, hz2, hz3⟩
        · exact Or.inl (List.mem_cons_of_mem x h2)
        · exact Or.inr ⟨z, List.mem_cons_of_mem x hz1, hz2, hz3⟩

theorem updateMinionState_frame (id : String) (plan : PerceptionPlan) (s : ServiceState) :
    (updateMinionState id plan s).channels = s.channels ∧
    (updateMinionState id plan s).messages = s.messages ∧
    (updateMinionState id plan s).apiKeys = s.apiKeys ∧
    (updateMinionState id plan s).apiKeyRoundRobinIndex = s.apiKeyRoundRobinIndex ∧
    (updateMinionState id plan s).minionConfigs.map (fun m => m.id) =
      s.minionConfigs.map (fun m => m.id) :=
  ⟨rfl, rfl, rfl, rfl,
    updateFirstBy_map_of_comm (fun m => m.id == id)
      (fun m => { m with opinionScores := plan.finalOpinions, lastDiaryState := some plan })
      (fun m => m.id) (fun _ => rfl) s.minionConfigs⟩

theorem configsOK_updateFirstBy (id : String) (plan : PerceptionPlan) :
    ∀ (l : List MinionConfig), (l.map (fun m => m.id)).Nodup →
    configsOK (updateFirstBy (fun m => m.id == id)
      (fun m => { m with opinionScores := plan.finalOpinions, lastDiaryState := some plan })
      l) id plan := by
  intro l
  induction l with
  | nil => intro _ m hm; cases hm
  | cons x rest ih =>
    intro hnd
    simp only [List.map_cons, List.nodup_cons] at hnd
    obtain ⟨hx, hrest⟩ := hnd
    by_cases hxid : x.id = id
    · have hb : (x.id == id) = true := by simp [beq_iff_eq, hxid]
      simp only [updateFirstBy, hb, if_true]
      intro m hm hmid
      rcases List.mem_cons.mp hm with h1 | h1
      · subst h1; exact ⟨rfl, rfl⟩
      · exact absurd (List.mem_map.mpr ⟨m, h1, hmid.trans hxid.symm⟩) hx
    · have hb : (x.id == id) = false := by simp [beq_iff_eq, hxid]
      simp only [updateFirstBy, hb, Bool.false_eq_true, if_false]
      intro m hm hmid
      rcases List.mem_cons.mp hm with h1 | h1
      · exact absurd (h1 ▸ hmid) hxid
      · exact ih hrest m h1 hmid

theorem updateMinionState_configsOK (id : String) (plan : PerceptionPlan) (s : ServiceState)
    (hnd : (s.minionConfigs.map (fun m => m.id)).Nodup) :
    configsOK (updateMinionState id plan s).minionConfigs id plan :=
  configsOK_updateFirstBy id plan s.minionConfigs hnd

theorem updateMinionState_configsOK_preserve (id : String) (plan : PerceptionPlan)
    (id2 : String) (plan2 : PerceptionPlan) (s : ServiceState)
    (hcase : id2 ≠ id ∨ plan2 = plan)
    (hok : configsOK s.minionConfigs id plan) :
    configsOK (updateMinionState id2 plan2 s).minionConfigs id plan := by
  intro m hm hmid
  rcases updateFirstBy_mem _ _ s.minionConfigs m hm with h1 | ⟨x, hx1, hx2, hx3⟩
  · exact hok m h1 hmid
  · have hxid2 : x.id = id2 := by simpa [beq_iff_eq] using hx2
    rcases hcase with h | h
    · exfalso
      apply h
      have hmx : m.id = x.id := by rw [hx3]
      rw [← hxid2, ← hmx, hmid]
    · subst h
      subst hx3
      exact ⟨rfl, rfl⟩

/-- Behaviour of the response stage when a usable credential is present and
the in-progress message id is fresh: a successful stream appends exactly the
finalized message; a failed stream leaves the stored transcript untouched. -/
theorem runStreamingResponse_spec (stream : MinionConfig → StreamOutcome)
    (cid mid : String) (minion : MinionConfig) (plan : PerceptionPlan)
    (keyInfo : SelectedKeyInfo) (now : Nat) (s : ServiceState)
    (hkey : keyInfo.key ≠ "")
    (hfresh : ∀ msg ∈ msgsGet s cid, msg.id ≠ mid) :
    (runStreamingResponse stream cid mid minion plan keyInfo now s).1.channels = s.channels ∧
    (runStreamingResponse stream cid mid minion plan keyInfo now s).1.apiKeys = s.apiKeys ∧
    (runStreamingResponse stream cid mid minion plan keyInfo now s).1.apiKeyRoundRobinIndex =
      s.apiKeyRoundRobinIndex ∧
    (runStreamingResponse stream cid mid minion plan keyInfo now s).1.minionConfigs.map
      (fun m => m.id) = s.minionConfigs.map (fun m => m.id) ∧
    msgsGet (runStreamingResponse stream cid mid minion plan keyInfo now s).1 cid =
      msgsGet s cid ++ (match stream minion with
        | .success chunks => [finalAiMessage cid mid minion plan chunks now]
        | .failure _ _ => []) := by
  have hkey' : (keyInfo.key == "") = false := by simp [beq_iff_eq, hkey]
  cases hst : stream minion with
  | success chunks =>
    have hmsgs1 : msgsGet (updateMinionState minion.id plan s) cid = msgsGet s cid := rfl
    have hany : ((msgsGet s cid).any (fun m => m.id == mid)) = false := by
      rw [List.any_eq_false]
      intro m hm
      simp [beq_iff_eq, hfresh m hm]
    simp only [runStreamingResponse, hkey', Bool.false_eq_true, if_false, hst, hmsgs1, hany]
    refine ⟨rfl, rfl, rfl, ?_, ?_⟩
    · exact (updateMinionState_frame minion.id plan s).2.2.2.2
    · rw [msgsGet_msgsSet_self]
  | failure chunks err =>
    have hmap : (msgsGet s cid).map (fun m =>
        if m.id == mid then errorFinalMessage cid mid minion ("Error: " ++ err) now else m) =
        msgsGet s cid := by
      apply map_replace_not_found
      intro m hm
      simp [beq_iff_eq, hfresh m hm]
    simp only [runStreamingResponse, hkey', Bool.false_eq_true, if_false, hst, hmap]
    exact ⟨rfl, rfl, rfl, rfl, by rw [msgsGet_msgsSet_self, List.append_nil]⟩

/-- The response stage never touches emotional state it has already committed:
on success it rewrites the speaker's state with the very same plan, and it
never touches any other minion's state. -/
theorem runStreamingResponse_configsOK (stream : MinionConfig → StreamOutcome)
    (cid mid : String) (minion : MinionConfig) (plan : PerceptionPlan)
    (keyInfo : SelectedKeyInfo) (now : Nat) (s : ServiceState)
    (id : String) (plan0 : PerceptionPlan)
    (hcase : minion.id ≠ id ∨ plan = plan0)
    (hok : configsOK s.minionConfigs id plan0) :
    configsOK (runStreamingResponse stream cid mid minion plan keyInfo now s).1.minionConfigs
      id plan0 := by
  by_cases hkey : keyInfo.key == ""
  · simp only [runStreamingResponse, hkey, if_true]
    exact hok
  · simp only [runStreamingResponse, hkey, Bool.false_eq_true, if_false]
    cases hst : stream minion with
    | success chunks =>
      exact updateMinionState_configsOK_preserve id plan0 minion.id plan s hcase hok
    | failure chunks err =>
      exact hok

/-- Under `goodKeys`, the human perception fan-out never throws, consults the
model for exactly the listed minions, settles result `(m, perceive m)` for
each in order, only moves the round-robin cursor, and emits only credential
audit entries. -/
theorem perceptionHuman_good (perceive : MinionConfig → PerceptionOutcome)
    (cid : String) (now : Nat) :
    ∀ (L : List MinionConfig) (s : ServiceState), goodKeys s →
    ∃ s' evs calls, perceptionHuman perceive cid now L s =
      some (L.map (fun m => (m, perceive m)), s', evs, calls) ∧
      s'.minionConfigs = s.minionConfigs ∧ s'.channels = s.channels ∧
      s'.messages = s.messages ∧ s'.apiKeys = s.apiKeys ∧ goodKeys s' ∧
      (∀ e ∈ evs, ∃ n info st, e = Event.systemMessage (apiKeyLogMessage cid n info st now)) := by
  intro L
  induction L with
  | nil =>
    intro s hg
    exact ⟨s, [], [], rfl, rfl, rfl, rfl, rfl, hg, by intro e he; cases he⟩
  | cons minion rest ih =>
    intro s hg
    obtain ⟨info, s1, hsel, hkey, hmc, hch, hms, hak, hg1⟩ :=
      selectApiKey_good minion.apiKeyId s hg
    obtain ⟨s', evs, calls, hrec, hmc', hch', hms', hak', hg', hevs⟩ := ih s1 hg1
    have hkey' : (info.key == "") = false := by simp [beq_iff_eq, hkey]
    refine ⟨s', Event.systemMessage (apiKeyLogMessage cid minion.name info "Perception" now)
        :: evs, [minion] ++ calls, ?_, hmc'.trans hmc, hch'.trans hch, hms'.trans hms,
      hak'.trans hak, hg', ?_⟩
    · simp only [perceptionHuman, hsel, hkey', Bool.false_eq_true, if_false, hrec,
        List.map_cons]
    · intro e he
      rcases List.mem_cons.mp he with h1 | h1
      · exact ⟨minion.name, info, "Perception", h1⟩
      · exact hevs e h1

/-- The JavaScript-truthy outcome an autonomous batch settles for each minion:
the author of the triggering message gets the synthesized self outcome, every
other minion the model's answer. -/
def autoOutcome (perceive : MinionConfig → PerceptionOutcome) (lastSenderName : String)
    (m : MinionConfig) : PerceptionOutcome :=
  if m.name == lastSenderName then selfOutcome else perceive m

/-- Under `goodKeys`, the autonomous perception fan-out never throws, settles
`(m, autoOutcome m)` in order, never consults the model for (nor selects a
credential for) an author of the triggering message, and emits only
credential audit entries. -/
theorem perceptionAuto_good (perceive : MinionConfig → PerceptionOutcome)
    (cid lastSenderName : String) (now : Nat) :
    ∀ (L : List MinionConfig) (s : ServiceState), goodKeys s →
    ∃ s' evs calls, perceptionAuto perceive cid lastSenderName now L s =
      some (L.map (fun m => (m, autoOutcome perceive lastSenderName m)), s', evs, calls) ∧
      s'.minionConfigs = s.minionConfigs ∧ s'.channels = s.channels ∧
      s'.messages = s.messages ∧ s'.apiKeys = s.apiKeys ∧ goodKeys s' ∧
      (∀ e ∈ evs, ∃ n info st, e = Event.systemMessage (apiKeyLogMessage cid n info st now)) ∧
      (∀ m ∈ calls, m.name ≠ lastSenderName ∧ m ∈ L) := by
  intro L
  induction L with
  | nil =>
    intro s hg
    refine ⟨s, [], [], rfl, rfl, rfl, rfl, rfl, hg, ?_, ?_⟩
    · intro e he; cases he
    · intro m hm; cases hm
  | cons minion rest ih =>
    intro s hg
    by_cases hself : minion.name = lastSenderName
    · have hb : (minion.name == lastSenderName) = true := by simp [beq_iff_eq, hself]
      obtain ⟨s', evs, calls, hrec, hmc', hch', hms', hak', hg', hevs, hcalls⟩ := ih s hg
      refine ⟨s', evs, calls, ?_, hmc', hch', hms', hak', hg', hevs, ?_⟩
      · simp only [perceptionAuto, hb, if_true, hrec, List.map_cons, autoOutcome]
      · intro m hm
        exact ⟨(hcalls m hm).1, List.mem_cons_of_mem minion (hcalls m hm).2⟩
    · have hb : (minion.name == lastSenderName) = false := by simp [beq_iff_eq, hself]
      obtain ⟨info, s1, hsel, hkey, hmc, hch, hms, hak, hg1⟩ :=
        selectApiKey_good minion.apiKeyId s hg
      obtain ⟨s', evs, calls, hrec, hmc', hch', hms', hak', hg', hevs, hcalls⟩ := ih s1 hg1
      have hkey' : (info.key == "") = false := by simp [beq_iff_eq, hkey]
      refine ⟨s', Event.systemMessage (apiKeyLogMessage cid minion.name info "Perception" now)
          :: evs, [minion] ++ calls, ?_, hmc'.trans hmc, hch'.trans hch, hms'.trans hms,
        hak'.trans hak, hg', ?_, ?_⟩
      · simp only [perceptionAuto, hb, Bool.false_eq_true, if_false, hsel, hkey', hrec,
          List.map_cons, autoOutcome]
      · intro e he
        rcases List.mem_cons.mp he with h1 | h1
        · exact ⟨minion.name, info, "Perception", h1⟩
        · exact hevs e h1
      · intro m hm
        rcases List.mem_cons.mp hm with h1 | h1
        · subst h1; exact ⟨hself, List.mem_cons_self m rest⟩
        · exact ⟨(hcalls m h1).1, List.mem_cons_of_mem minion (hcalls m h1).2⟩

/-- Processing the settled results only rewrites minion emotional state: the
channel list, transcript, credential pool and cursor are untouched and the
roster's id sequence is preserved. -/
theorem processResults_frame (cid : String) (now : Nat) :
    ∀ (results : List (MinionConfig × PerceptionOutcome)) (s : ServiceState),
    (processResults cid now results s).1.channels = s.channels ∧
    (processResults cid now results s).1.messages = s.messages ∧
    (processResults cid now results s).1.apiKeys = s.apiKeys ∧
    (processResults cid now results s).1.apiKeyRoundRobinIndex = s.apiKeyRoundRobinIndex ∧
    (processResults cid now results s).1.minionConfigs.map (fun m => m.id) =
      s.minionConfigs.map (fun m => m.id) := by
  intro results
  induction results with
  | nil => intro s; exact ⟨rfl, rfl, rfl, rfl, rfl⟩
  | cons r rest ih =>
    intro s
    obtain ⟨m0, o0⟩ := r
    cases ho : o0.plan with
    | none =>
      simpa only [processResults, ho] using ih s
    | some plan0 =>
      by_cases herr : errTruthy o0.error = true
      · simpa only [processResults, ho, herr, if_true] using ih s
      · have herr' : errTruthy o0.error = false := by
          cases h : errTruthy o0.error
          · rfl
          · exact absurd h herr
        have hupd := updateMinionState_frame m0.id plan0 s
        have hrec := ih (updateMinionState m0.id plan0 s)
        by_cases hact : (plan0.action == PlanAction.speak) = true
        · simp only [processResults, ho, herr', Bool.false_eq_true, if_false, hact, if_true]
          exact ⟨hrec.1.trans hupd.1, hrec.2.1.trans hupd.2.1, hrec.2.2.1.trans hupd.2.2.1,
            hrec.2.2.2.1.trans hupd.2.2.2.1, hrec.2.2.2.2.trans hupd.2.2.2.2⟩
        · simp only [Bool.not_eq_true] at hact
          simp only [processResults, ho, herr', Bool.false_eq_true, if_false, hact]
          exact ⟨hrec.1.trans hupd.1, hrec.2.1.trans hupd.2.1, hrec.2.2.1.trans hupd.2.2.1,
            hrec.2.2.2.1.trans hupd.2.2.2.1, hrec.2.2.2.2.trans hupd.2.2.2.2⟩

/-- The SPEAK set collected by the result-processing loop is exactly the
filter: plan present, error falsy, action SPEAK, in result order. -/
theorem processResults_speakers (cid : String) (now : Nat) :
    ∀ (results : List (MinionConfig × PerceptionOutcome)) (s : ServiceState),
    (processResults cid now results s).2.2 = results.filterMap speakProj := by
  intro results
  induction results with
  | nil => intro s; rfl
  | cons r rest ih =>
    intro s
    obtain ⟨m0, o0⟩ := r
    cases ho : o0.plan with
    | none =>
      simp only [processResults, ho, List.filterMap_cons, speakProj, ih s]
    | some plan0 =>
      by_cases herr : errTruthy o0.error = true
      · simp only [processResults, ho, herr, if_true, List.filterMap_cons, speakProj, ih s]
      · have herr' : errTruthy o0.error = false := by
          cases h : errTruthy o0.error
          · rfl
          · exact absurd h herr
        by_cases hact : (plan0.action == PlanAction.speak) = true
        · simp only [processResults, ho, herr', Bool.false_eq_true, if_false, hact, if_true,
            List.filterMap_cons, speakProj, ih (updateMinionState m0.id plan0 s)]
        · simp only [Bool.not_eq_true] at hact
          simp only [processResults, ho, herr', Bool.false_eq_true, if_false, hact,
            List.filterMap_cons, speakProj, ih (updateMinionState m0.id plan0 s)]

/-- Every event the result-processing loop emits is either a per-minion
perception-failure diagnostic or a per-minion silence notice. -/
theorem processResults_events (cid : String) (now : Nat) :
    ∀ (results : List (MinionConfig × PerceptionOutcome)) (s : ServiceState),
    ∀ e ∈ (processResults cid now results s).2.1,
      (∃ m o, e = Event.systemMessage (perceptionErrorMessage cid m now o)) ∨
      (∃ m, e = Event.systemMessage (silentMessage cid m now)) := by
  intro results
  induction results with
  | nil => intro s e he; cases he
  | cons r rest ih =>
    intro s e he
    obtain ⟨m0, o0⟩ := r
    cases ho : o0.plan with
    | none =>
      simp only [processResults, ho] at he
      rcases List.mem_cons.mp he with h1 | h1
      · exact Or.inl ⟨m0, o0.error, h1⟩
      · exact ih s e h1
    | some plan0 =>
      by_cases herr : errTruthy o0.error = true
      · simp only [processResults, ho, herr, if_true] at he
        rcases List.mem_cons.mp he with h1 | h1
        · exact Or.inl ⟨m0, o0.error, h1⟩
        · exact ih s e h1
      · have herr' : errTruthy o0.error = false := by
          cases h : errTruthy o0.error
          · rfl
          · exact absurd h herr
        by_cases hact : (plan0.action == PlanAction.speak) = true
        · simp only [processResults, ho, herr', Bool.false_eq_true, if_false, hact,
            if_true] at he
          exact ih (updateMinionState m0.id plan0 s) e he
        · simp only [Bool.not_eq_true] at hact
          simp only [processResults, ho, herr', Bool.false_eq_true, if_false, hact] at he
          rcases List.mem_cons.mp he with h1 | h1
          · exact Or.inr ⟨m0, h1⟩
          · exact ih (updateMinionState m0.id plan0 s) e h1

/-- Result processing for minions with other ids cannot disturb an already
committed (id, plan) state. -/
theorem processResults_preserveOK (cid : String) (now : Nat) (id : String)
    (plan : PerceptionPlan) :
    ∀ (results : List (MinionConfig × PerceptionOutcome)) (s : ServiceState),
    (∀ r ∈ results, r.1.id ≠ id) → configsOK s.minionConfigs id plan →
    configsOK (processResults cid now results s).1.minionConfigs id plan := by
  intro results
  induction results with
  | nil => intro s _ hok; exact hok
  | cons r rest ih =>
    intro s hne hok
    obtain ⟨m0, o0⟩ := r
    have hne0 : m0.id ≠ id := hne (m0, o0) (List.mem_cons_self _ _)
    have hnerest : ∀ r ∈ rest, r.1.id ≠ id := fun r hr => hne r (List.mem_cons_of_mem _ hr)
    cases ho : o0.plan with
    | none =>
      simp only [processResults, ho]
      exact ih s hnerest hok
    | some plan0 =>
      by_cases herr : errTruthy o0.error = true
      · simp only [processResults, ho, herr, if_true]
        exact ih s hnerest hok
      · have herr' : errTruthy o0.error = false := by
          cases h : errTruthy o0.error
          · rfl
          · exact absurd h herr
        have hok1 : configsOK (updateMinionState m0.id plan0 s).minionConfigs id plan :=
          updateMinionState_configsOK_preserve id plan m0.id plan0 s (Or.inl hne0) hok
        by_cases hact : (plan0.action == PlanAction.speak) = true
        · simp only [processResults, ho, herr', Bool.false_eq_true, if_false, hact, if_true]
          exact ih (updateMinionState m0.id plan0 s) hnerest hok1
        · simp only [Bool.not_eq_true] at hact
          simp only [processResults, ho, herr', Bool.false_eq_true, if_false, hact]
          exact ih (updateMinionState m0.id plan0 s) hnerest hok1

/-- After result processing, every minion whose settled result carried a
usable plan (plan present, error falsy) has that plan committed: its stored
opinion map is the plan's `finalOpinions` and its stored diary is the plan —
whatever the plan's action was. -/
theorem processResults_configsOK (cid : String) (now : Nat) :
    ∀ (results : List (MinionConfig × PerceptionOutcome)) (s : ServiceState)
      (minion : MinionConfig) (o : PerceptionOutcome) (plan : PerceptionPlan),
    (minion, o) ∈ results → o.plan = some plan → errTruthy o.error = false →
    (results.map (fun r => r.1.id)).Nodup →
    (s.minionConfigs.map (fun m => m.id)).Nodup →
    configsOK (processResults cid now results s).1.minionConfigs minion.id plan := by
  intro results
  induction results with
  | nil => intro s minion o plan hmem; cases hmem
  | cons r rest ih =>
    intro s minion o plan hmem hplan herr hndres hndst
    obtain ⟨m0, o0⟩ := r
    simp only [List.map_cons, List.nodup_cons] at hndres
    obtain ⟨hrid, hndrest⟩ := hndres
    rcases List.mem_cons.mp hmem with heq | hmemrest
    · obtain ⟨hm, ho⟩ := Prod.mk.injEq .. ▸ heq
      subst hm
      subst ho
      simp only [processResults, hplan, herr, Bool.false_eq_true, if_false]
      have hok1 : configsOK (updateMinionState minion.id plan s).minionConfigs
          minion.id plan := updateMinionState_configsOK minion.id plan s hndst
      have hnerest : ∀ r ∈ rest, r.1.id ≠ minion.id := by
        intro r hr he
        exact hrid (List.mem_map.mpr ⟨r, hr, he⟩)
      by_cases hact : (plan.action == PlanAction.speak) = true
      · simp only [hact, if_true]
        exact processResults_preserveOK cid now minion.id plan rest
          (updateMinionState minion.id plan s) hnerest hok1
      · simp only [Bool.not_eq_true] at hact
        simp only [hact]
        exact processResults_preserveOK cid now minion.id plan rest
          (updateMinionState minion.id plan s) hnerest hok1
    · cases ho0 : o0.plan with
      | none =>
        simp only [processResults, ho0]
        exact ih s minion o plan hmemrest hplan herr hndrest hndst
      | some plan0 =>
        by_cases herr0 : errTruthy o0.error = true
        · simp only [processResults, ho0, herr0, if_true]
          exact ih s minion o plan hmemrest hplan herr hndrest hndst
        · have herr0' : errTruthy o0.error = false := by
            cases h : errTruthy o0.error
            · rfl
            · exact absurd h herr0
          have hndst1 : ((updateMinionState m0.id plan0 s).minionConfigs.map
              (fun m => m.id)).Nodup := by
            rw [(updateMinionState_frame m0.id plan0 s).2.2.2.2]
            exact hndst
          by_cases hact : (plan0.action == PlanAction.speak) = true
          · simp only [processResults, ho0, herr0', Bool.false_eq_true, if_false, hact,
              if_true]
            exact ih (updateMinionState m0.id plan0 s) minion o plan hmemrest hplan herr
              hndrest hndst1
          · simp only [Bool.not_eq_true] at hact
            simp only [processResults, ho0, herr0', Bool.false_eq_true, if_false, hact]
            exact ih (updateMinionState m0.id plan0 s) minion o plan hmemrest hplan herr
              hndrest hndst1

/-- Whatever the pin, a non-throwing selection changes nothing but the
round-robin cursor. -/
theorem selectApiKey_ok_frame {pin : Option String} {s : ServiceState}
    {info : SelectedKeyInfo} {s' : ServiceState}
    (h : selectApiKey pin s = .ok info s') :
    s'.minionConfigs = s.minionConfigs ∧ s'.channels = s.channels ∧
    s'.messages = s.messages ∧ s'.apiKeys = s.apiKeys := by
  simp only [selectApiKey] at h
  repeat' split at h
  all_goals
    first
      | (cases h; exact ⟨rfl, rfl, rfl, rfl⟩)
      | cases h

/-- Equal message stores read equally. -/
theorem msgsGet_congr {s s' : ServiceState} (h : s'.messages = s.messages) (cid : String) :
    msgsGet s' cid = msgsGet s cid := by
  unfold msgsGet
  rw [h]

/-- The response loop only ever commits the plans it was handed: a committed
(id, plan) entry survives when every speaker that shares the id carries the
same plan. -/
theorem respLoop_configsOK (stream : MinionConfig → StreamOutcome) (cid : String)
    (now : Nat) (id : String) (plan : PerceptionPlan) :
    ∀ (speakers : List (MinionConfig × PerceptionPlan)) (s : ServiceState)
      (r : ServiceState × List Event × List MinionConfig),
    (∀ sp ∈ speakers, sp.1.id = id → sp.2 = plan) →
    configsOK s.minionConfigs id plan →
    respLoop stream cid now speakers s = some r →
    configsOK r.1.minionConfigs id plan := by
  intro speakers
  induction speakers with
  | nil =>
    intro s r _ hok hrun
    cases hrun
    exact hok
  | cons sp rest ih =>
    intro s r hsp hok hrun
    obtain ⟨minion, plan0⟩ := sp
    cases hsel : selectApiKey minion.apiKeyId s with
    | crash s1 =>
      simp only [respLoop, hsel] at hrun
      cases hrun
    | ok info s1 =>
      have hf1 := selectApiKey_ok_frame hsel
      have hok1 : configsOK s1.minionConfigs id plan := by
        rw [hf1.1]; exact hok
      have hcase : minion.id ≠ id ∨ plan0 = plan := by
        by_cases hmid : minion.id = id
        · exact Or.inr (hsp (minion, plan0) (List.mem_cons_self _ _) hmid)
        · exact Or.inl hmid
      have hok2 : configsOK (runStreamingResponse stream cid (aiMsgId minion.id now)
          minion plan0 info now s1).1.minionConfigs id plan :=
        runStreamingResponse_configsOK stream cid (aiMsgId minion.id now) minion plan0
          info now s1 id plan hcase hok1
      rcases hrs : runStreamingResponse stream cid (aiMsgId minion.id now) minion plan0
          info now s1 with ⟨s2, evStream, calls2⟩
      rw [hrs] at hok2
      cases hrec : respLoop stream cid now rest s2 with
      | none =>
        simp only [respLoop, hsel, hrs, hrec] at hrun
        cases hrun
      | some r3 =>
        obtain ⟨s3, evs3, calls3⟩ := r3
        have hres := ih s2 (s3, evs3, calls3)
          (fun sp hsp' hid => hsp sp (List.mem_cons_of_mem _ hsp') hid) hok2 hrec
        simp only [respLoop, hsel, hrs, hrec] at hrun
        rw [← Option.some_inj.mp hrun]
        exact hres

/-- Under `goodKeys`, with fresh in-progress ids and id-distinct speakers, the
response loop never throws and its net effect on the channel transcript is to
append exactly `respAdditions`: one finalized message (diary attached) per
successfully streamed speaker, in speaker order; failed or key-less streams
append nothing. -/
theorem respLoop_run (stream : MinionConfig → StreamOutcome) (cid : String) (now : Nat) :
    ∀ (speakers : List (MinionConfig × PerceptionPlan)) (s : ServiceState),
    goodKeys s →
    (∀ sp ∈ speakers, ∀ msg ∈ msgsGet s cid, msg.id ≠ aiMsgId sp.1.id now) →
    (speakers.map (fun sp => sp.1.id)).Nodup →
    ∃ s' evs calls, respLoop stream cid now speakers s = some (s', evs, calls) ∧
      msgsGet s' cid = msgsGet s cid ++ respAdditions stream now cid speakers ∧
      s'.channels = s.channels ∧ s'.apiKeys = s.apiKeys ∧ goodKeys s' ∧
      s'.minionConfigs.map (fun m => m.id) = s.minionConfigs.map (fun m => m.id) := by
  intro speakers
  induction speakers with
  | nil =>
    intro s hg _ _
    exact ⟨s, [], [], rfl, by simp [respAdditions], rfl, rfl, hg, rfl⟩
  | cons sp rest ih =>
    intro s hg hfresh hnd
    obtain ⟨minion, plan⟩ := sp
    simp only [List.map_cons, List.nodup_cons] at hnd
    obtain ⟨hndhd, hndrest⟩ := hnd
    obtain ⟨info, s1, hsel, hkey, hmc1, hch1, hms1, hak1, hg1⟩ :=
      selectApiKey_good minion.apiKeyId s hg
    have hmsgs1 : msgsGet s1 cid = msgsGet s cid := msgsGet_congr hms1 cid
    have hfresh1 : ∀ msg ∈ msgsGet s1 cid, msg.id ≠ aiMsgId minion.id now := by
      rw [hmsgs1]
      exact fun msg hm => hfresh (minion, plan) (List.mem_cons_self _ _) msg hm
    have hspec := runStreamingResponse_spec stream cid (aiMsgId minion.id now) minion plan
      info now s1 hkey hfresh1
    rcases hrs : runStreamingResponse stream cid (aiMsgId minion.id now) minion plan
        info now s1 with ⟨s2, evStream, calls2⟩
    rw [hrs] at hspec
    obtain ⟨hch2, hak2, hcur2, hmc2, hmsgs2⟩ := hspec
    have hg2 : goodKeys s2 := by
      constructor
      · rw [hcur2, hak2, hak1]
        exact (hg1.1.trans_eq (congrArg List.length hak1))
      · rw [hak2, hak1]
        exact hg.2
    have hmsgs2' : msgsGet s2 cid = msgsGet s cid ++ (match stream minion with
        | .success chunks => [finalAiMessage cid (aiMsgId minion.id now) minion plan chunks now]
        | .failure _ _ => []) := by
      rw [hmsgs2, hmsgs1]
    have hfresh2 : ∀ sp ∈ rest, ∀ msg ∈ msgsGet s2 cid, msg.id ≠ aiMsgId sp.1.id now := by
      intro sp hsp msg hmsg
      rw [hmsgs2'] at hmsg
      rcases List.mem_append.mp hmsg with h1 | h1
      · exact hfresh sp (List.mem_cons_of_mem _ hsp) msg h1
      · cases hst : stream minion with
        | success chunks =>
          rw [hst] at h1
          rcases List.mem_singleton.mp h1 with rfl
          intro heq
          apply hndhd
          have heq' : aiMsgId minion.id now = aiMsgId sp.1.id now := heq
          exact List.mem_map.mpr ⟨sp, hsp, (aiMsgId_inj heq').symm⟩
        | failure chunks err =>
          rw [hst] at h1
          cases h1
    obtain ⟨s3, evs3, calls3, hrec, hmsgs3, hch3, hak3, hg3, hmc3⟩ := ih s2 hg2 hfresh2 hndrest
    refine ⟨s3,
      Event.minionResponse (placeholderMessage cid minion now) ::
        Event.systemMessage (apiKeyLogMessage cid minion.name info "Response" now) ::
        (evStream ++ Event.processingUpdate minion.name false :: evs3),
      calls2 ++ calls3, ?_, ?_, hch3.trans (hch2.trans hch1), hak3.trans (hak2.trans hak1),
      hg3, hmc3.trans (hmc2.trans (by rw [hmc1]))⟩
    · simp only [respLoop, hsel, hrs, hrec]
    · rw [hmsgs3, hmsgs2']
      rw [List.append_assoc]
      congr 1
      show (match stream minion with
        | .success chunks => [finalAiMessage cid (aiMsgId minion.id now) minion plan chunks now]
        | .failure _ _ => []) ++ respAdditions stream now cid rest =
        respAdditions stream now cid ((minion, plan) :: rest)
      cases hst : stream minion with
      | success chunks => simp [respAdditions, hst]
      | failure chunks err => simp [respAdditions, hst]

/-- Inversion of the SPEAK-set projection. -/
theorem speakProj_some {r : MinionConfig × PerceptionOutcome}
    {sp : MinionConfig × PerceptionPlan} (h : speakProj r = some sp) :
    sp.1 = r.1 ∧ r.2.plan = some sp.2 ∧ errTruthy r.2.error = false ∧
    sp.2.action = PlanAction.speak := by
  unfold speakProj at h
  cases hp : r.2.plan with
  | none => rw [hp] at h; cases h
  | some p =>
    rw [hp] at h
    by_cases herr : errTruthy r.2.error = true
    · rw [herr] at h; simp at h
    · have herr' : errTruthy r.2.error = false := by
        cases hh : errTruthy r.2.error
        · rfl
        · exact absurd hh herr
      rw [herr'] at h
      simp only [Bool.false_eq_true, if_false] at h
      by_cases hact : (p.action == PlanAction.speak) = true
      · rw [hact] at h
        simp only [if_true, Option.some_inj] at h
        subst h
        exact ⟨rfl, rfl, herr', by simpa [beq_iff_eq] using hact⟩
      · simp only [Bool.not_eq_true] at hact
        rw [hact] at h
        simp at h

/-- The speakers drawn from a roster keep that roster's id sequence as a
sublist. -/
theorem speakSet_ids_sublist (perceive : MinionConfig → PerceptionOutcome) :
    ∀ (l : List MinionConfig),
    ((l.filterMap (fun m => speakProj (m, perceive m))).map (fun sp => sp.1.id)).Sublist
      (l.map (fun m => m.id)) := by
  intro l
  induction l with
  | nil => simp
  | cons m rest ih =>
    cases hp : speakProj (m, perceive m) with
    | none =>
      simp only [List.filterMap_cons, hp, List.map_cons]
      exact ih.cons _
    | some sp =>
      have h1 : sp.1 = m := (speakProj_some hp).1
      simp only [List.filterMap_cons, hp, List.map_cons, h1]
      exact ih.cons₂ _

theorem pairwise_filterMap_of {α β : Type} (R : α → α → Prop) (S : β → β → Prop)
    (f : α → Option β)
    (hf : ∀ a b x y, R a b → f a = some x → f b = some y → S x y) :
    ∀ l : List α, l.Pairwise R → (l.filterMap f).Pairwise S := by
  intro l
  induction l with
  | nil => intro _; simp
  | cons a rest ih =>
    intro hp
    obtain ⟨ha, hrest⟩ := List.pairwise_cons.mp hp
    cases hfa : f a with
    | none => simpa [List.filterMap_cons, hfa] using ih hrest
    | some x =>
      simp only [List.filterMap_cons, hfa]
      rw [List.pairwise_cons]
      refine ⟨?_, ih hrest⟩
      intro y hy
      obtain ⟨b, hb, hfb⟩ := List.mem_filterMap.mp hy
      exact hf a b x y (ha b hb) hfa hfb

/-- Master description of a human-triggered batch in which every minion can
obtain a usable credential: the run never throws; its events are the
composing flags, the perception audit entries, the per-minion
diagnostics/silence notices, the non-speaker composing-off flags, and the
response-stage events (none when the SPEAK set is empty); the transcript
gains the user message and then exactly the finalized messages of the
successfully streamed speakers in latency order; and every minion whose
perception succeeded has its plan committed. -/
theorem handleUserMessage_run (perceive : MinionConfig → PerceptionOutcome)
    (stream : MinionConfig → StreamOutcome) (now : Nat) (s : ServiceState)
    (cid : String) (userMessage : ChatMessageData) (ch : Channel)
    (hch : s.channels.find? (fun c => c.id == cid) = some ch)
    (hg : goodKeys s)
    (hne : minionsInChannel s ch ≠ [])
    (hnd : (s.minionConfigs.map (fun m => m.id)).Nodup)
    (hfresh : ∀ m ∈ minionsInChannel s ch, ∀ msg ∈ msgsGet s cid ++ [userMessage],
        msg.id ≠ aiMsgId m.id now) :
    ∃ s3 evsPerc evsProc evsResp percCalls streamCalls,
      handleUserMessage perceive stream now s cid userMessage =
        some ⟨s3,
          (minionsInChannel s ch).map (fun m => Event.processingUpdate m.name true) ++
            evsPerc ++ evsProc ++
            speakersOffEvents (minionsInChannel s ch) (humanSpeakSet perceive s ch) ++
            evsResp,
          percCalls, streamCalls⟩ ∧
      (∀ e ∈ evsPerc, ∃ n info st,
        e = Event.systemMessage (apiKeyLogMessage cid n info st now)) ∧
      (∀ e ∈ evsProc,
        (∃ m o, e = Event.systemMessage (perceptionErrorMessage cid m now o)) ∨
        (∃ m, e = Event.systemMessage (silentMessage cid m now))) ∧
      (humanSpeakSet perceive s ch = [] → evsResp = [] ∧ streamCalls = []) ∧
      msgsGet s3 cid = (msgsGet s cid ++ [userMessage]) ++
        respAdditions stream now cid
          (List.insertionSort speakerLe (humanSpeakSet perceive s ch)) ∧
      (∀ minion ∈ minionsInChannel s ch, ∀ plan : PerceptionPlan,
        perceive minion = ⟨some plan, none⟩ →
        configsOK s3.minionConfigs minion.id plan) := by
  set s0 := msgsSet s cid (msgsGet s cid ++ [userMessage]) with hs0
  have hch0 : s0.channels.find? (fun c => c.id == cid) = some ch := hch
  have hg0 : goodKeys s0 := hg
  have hm0 : minionsInChannel s0 ch = minionsInChannel s ch := rfl
  have hmsgs0 : msgsGet s0 cid = msgsGet s cid ++ [userMessage] :=
    msgsGet_msgsSet_self s cid (msgsGet s cid ++ [userMessage])
  have hlen0 : ((minionsInChannel s0 ch).length == 0) = false := by
    rw [hm0]
    simp only [beq_eq_false_iff_ne, ne_eq, List.length_eq_zero]
    exact hne
  obtain ⟨s1, evsPerc, percCalls, hperc, hmc1, hch1, hms1, hak1, hg1, hevsPerc⟩ :=
    perceptionHuman_good perceive cid now (minionsInChannel s0 ch) s0 hg0
  rcases hpr : processResults cid now
      ((minionsInChannel s0 ch).map (fun m => (m, perceive m))) s1 with
    ⟨s2, evsProc, speakers⟩
  have hframe2 := processResults_frame cid now
    ((minionsInChannel s0 ch).map (fun m => (m, perceive m))) s1
  rw [hpr] at hframe2
  obtain ⟨hch2a, hms2a, hak2a, hcur2a, hmc2a⟩ := hframe2
  have hch2 : s2.channels = s1.channels := hch2a
  have hms2 : s2.messages = s1.messages := hms2a
  have hak2 : s2.apiKeys = s1.apiKeys := hak2a
  have hcur2 : s2.apiKeyRoundRobinIndex = s1.apiKeyRoundRobinIndex := hcur2a
  have hmc2 : s2.minionConfigs.map (fun m => m.id) =
      s1.minionConfigs.map (fun m => m.id) := hmc2a
  have hg2 : goodKeys s2 := by
    constructor
    · rw [hcur2, hak2]
      exact hg1.1
    · rw [hak2]
      exact hg1.2
  have hspeak : speakers = humanSpeakSet perceive s ch := by
    have hsp := processResults_speakers cid now
      ((minionsInChannel s0 ch).map (fun m => (m, perceive m))) s1
    rw [hpr] at hsp
    have hsp2 : speakers = List.filterMap speakProj
        ((minionsInChannel s0 ch).map (fun m => (m, perceive m))) := hsp
    rw [hsp2, List.filterMap_map]
    rfl
  have hmsgs2 : msgsGet s2 cid = msgsGet s cid ++ [userMessage] := by
    rw [msgsGet_congr hms2 cid, msgsGet_congr hms1 cid, hmsgs0]
  have hspeakmem : ∀ sp ∈ humanSpeakSet perceive s ch,
      sp.1 ∈ minionsInChannel s ch ∧ (perceive sp.1).plan = some sp.2 ∧
      errTruthy (perceive sp.1).error = false := by
    intro sp hsp
    obtain ⟨m, hm, hproj⟩ := List.mem_filterMap.mp hsp
    obtain ⟨h1, h2, h3, _⟩ := speakProj_some hproj
    subst h1
    exact ⟨hm, h2, h3⟩
  have hfresh2 : ∀ sp ∈ List.insertionSort speakerLe (humanSpeakSet perceive s ch),
      ∀ msg ∈ msgsGet s2 cid, msg.id ≠ aiMsgId sp.1.id now := by
    intro sp hsp msg hmsg
    have hsp' : sp ∈ humanSpeakSet perceive s ch := (List.mem_insertionSort _).mp hsp
    have hmem := (hspeakmem sp hsp').1
    rw [hmsgs2] at hmsg
    exact hfresh sp.1 hmem msg hmsg
  have hndids : ((List.insertionSort speakerLe (humanSpeakSet perceive s ch)).map
      (fun sp => sp.1.id)).Nodup := by
    have hperm : (List.insertionSort speakerLe (humanSpeakSet perceive s ch)).Perm
        (humanSpeakSet perceive s ch) := List.perm_insertionSort _ _
    rw [List.Perm.nodup_iff (hperm.map (fun sp => sp.1.id))]
    have hsub1 : ((humanSpeakSet perceive s ch).map (fun sp => sp.1.id)).Sublist
        ((minionsInChannel s ch).map (fun m => m.id)) := speakSet_ids_sublist perceive _
    have hsub2 : ((minionsInChannel s ch).map (fun m => m.id)).Sublist
        (s.minionConfigs.map (fun m => m.id)) :=
      (List.filter_sublist s.minionConfigs).map (fun m => m.id)
    exact hnd.sublist (hsub1.trans hsub2)
  obtain ⟨s3, evsResp, streamCalls, hresp, hmsgs3, hch3, hak3, hg3, hmc3⟩ :=
    respLoop_run stream cid now
      (List.insertionSort speakerLe (humanSpeakSet perceive s ch)) s2 hg2 hfresh2 hndids
  refine ⟨s3, evsPerc, evsProc, evsResp, percCalls, streamCalls, ?_, hevsPerc, ?_, ?_, ?_, ?_⟩
  · rw [show handleUserMessage perceive stream now s cid userMessage =
      (match s0.channels.find? (fun c => c.id == cid) with
        | none => some ⟨s0, [], [], []⟩
        | some activeChannel =>
          if (minionsInChannel s0 activeChannel).length == 0 then some ⟨s0, [], [], []⟩
          else
            match perceptionHuman perceive cid now (minionsInChannel s0 activeChannel) s0 with
            | none => none
            | some (results, s1, evsPerc, percCalls) =>
              match processResults cid now results s1 with
              | (s2, evsProc, speakers) =>
                match respLoop stream cid now
                    (List.insertionSort speakerLe speakers) s2 with
                | none => none
                | some (s3, evsResp, streamCalls) =>
                  some ⟨s3,
                    (minionsInChannel s0 activeChannel).map
                      (fun m => Event.processingUpdate m.name true) ++
                      evsPerc ++ evsProc ++
                      speakersOffEvents (minionsInChannel s0 activeChannel) speakers ++
                      evsResp,
                    percCalls, streamCalls⟩) from rfl]
    rw [hch0]
    simp only [hlen0, Bool.false_eq_true, if_false, hperc, hpr, hspeak, hresp]
    rfl
  · intro e he
    exact processResults_events cid now _ s1 e (by rw [hpr]; exact he)
  · intro hempty
    rw [hempty] at hresp
    have h : (s2, ([] : List Event), ([] : List MinionConfig)) =
        (s3, evsResp, streamCalls) := Option.some_inj.mp hresp
    injection h with ha hb
    injection hb with hb1 hb2
    exact ⟨hb1.symm, hb2.symm⟩
  · rw [hmsgs3, hmsgs2]
  · intro minion hmem plan hpercm
    have hmem0 : minion ∈ minionsInChannel s0 ch := hmem
    have hresmem : (minion, perceive minion) ∈
        (minionsInChannel s0 ch).map (fun m => (m, perceive m)) :=
      List.mem_map.mpr ⟨minion, hmem0, rfl⟩
    have hresids : (((minionsInChannel s0 ch).map (fun m => (m, perceive m))).map
        (fun r => r.1.id)).Nodup := by
      rw [List.map_map]
      have hsub2 : ((minionsInChannel s ch).map (fun m => m.id)).Sublist
          (s.minionConfigs.map (fun m => m.id)) :=
        (List.filter_sublist s.minionConfigs).map (fun m => m.id)
      exact hnd.sublist hsub2
    have hs1ids : (s1.minionConfigs.map (fun m => m.id)).Nodup := by
      rw [hmc1]
      exact hnd
    have hok2a := processResults_configsOK cid now
      ((minionsInChannel s0 ch).map (fun m => (m, perceive m))) s1 minion
      (perceive minion) plan hresmem (by rw [hpercm]) (by rw [hpercm]; rfl)
      hresids hs1ids
    rw [hpr] at hok2a
    have hok2 : configsOK s2.minionConfigs minion.id plan := hok2a
    have hcons : ∀ sp ∈ List.insertionSort speakerLe (humanSpeakSet perceive s ch),
        sp.1.id = minion.id → sp.2 = plan := by
      intro sp hsp hid
      have hsp' : sp ∈ humanSpeakSet perceive s ch := (List.mem_insertionSort _).mp hsp
      obtain ⟨hmemsp, hplansp, _⟩ := hspeakmem sp hsp'
      have hmemsp' : sp.1 ∈ s.minionConfigs := List.mem_of_mem_filter hmemsp
      have hmemmn : minion ∈ s.minionConfigs := List.mem_of_mem_filter hmem
      have heq : sp.1 = minion :=
        List.inj_on_of_nodup_map hnd hmemsp' hmemmn hid
      rw [heq, hpercm] at hplansp
      injection hplansp with h
      exact h.symm
    exact respLoop_configsOK stream cid now minion.id plan
      (List.insertionSort speakerLe (humanSpeakSet perceive s ch)) s2
      (s3, evsResp, streamCalls) hcons hok2 hresp

/-- A string cannot equal a target whose prefix of the same length differs. -/
theorem append_left_ne {a c : String}
    (hdiff : ¬ (List.take a.data.length c.data = a.data)) :
    ∀ b : String, a ++ b ≠ c := by
  intro b h
  apply hdiff
  have hd := congrArg String.data h
  rw [String.data_append] at hd
  rw [← hd, List.take_left]

/-- A string cannot equal a target whose suffix of the same length differs. -/
theorem append_right_ne {b c : String}
    (hdiff : ¬ (List.take b.data.length c.data.reverse = b.data.reverse)) :
    ∀ n : String, n ++ b ≠ c := by
  intro n h
  apply hdiff
  have hd := congrArg String.data h
  rw [String.data_append] at hd
  rw [← hd, List.reverse_append]
  have := List.take_left b.data.reverse n.data.reverse
  rw [List.length_reverse] at this
  exact this

/-- Whether a string contains the single-quote character. -/
def hasQuote (s : String) : Bool :=
  s.data.any (fun c => "\x27".data.contains c)

theorem hasQuote_keylogContent (n kn ms st : String) :
    hasQuote (keylogContent n kn ms st) = true := by
  unfold hasQuote keylogContent
  simp only [String.data_append, List.any_append]
  have hfix : (" is using key \x27".data.any (fun c => "\x27".data.contains c)) = true := by
    decide
  rw [hfix]
  simp

theorem keylogContent_ne_allSilent (n kn ms st : String) :
    keylogContent n kn ms st ≠ "All minions chose to remain silent this turn." := by
  intro h
  have h1 := hasQuote_keylogContent n kn ms st
  rw [h] at h1
  have h2 : hasQuote "All minions chose to remain silent this turn." = false := by decide
  rw [h1] at h2
  cases h2

theorem errorContent_ne_allSilent (name : String) (err : Option String) :
    "Error during " ++ (name ++ ("\x27s perception stage: " ++ errText err)) ≠
    "All minions chose to remain silent this turn." :=
  append_left_ne (by decide) _

theorem silentContent_ne_allSilent (name : String) :
    name ++ " chose to remain silent." ≠
    "All minions chose to remain silent this turn." :=
  append_right_ne (by decide) name

/-- The response stage reports only response messages and stream chunks. -/
theorem runStreamingResponse_events (stream : MinionConfig → StreamOutcome)
    (cid mid : String) (minion : MinionConfig) (plan : PerceptionPlan)
    (keyInfo : SelectedKeyInfo) (now : Nat) (s : ServiceState) :
    ∀ e ∈ (runStreamingResponse stream cid mid minion plan keyInfo now s).2.1,
      (∃ msg, e = Event.minionResponse msg) ∨
      (∃ a b c, e = Event.responseChunk a b c) := by
  intro e he
  by_cases hkey : (keyInfo.key == "") = true
  · simp only [runStreamingResponse, hkey, if_true] at he
    rcases List.mem_singleton.mp he with rfl
    exact Or.inl ⟨_, rfl⟩
  · simp only [Bool.not_eq_true] at hkey
    simp only [runStreamingResponse, hkey, Bool.false_eq_true, if_false] at he
    cases hst : stream minion with
    | success chunks =>
      rw [hst] at he
      simp only [] at he
      rcases List.mem_append.mp he with h1 | h1
      · obtain ⟨c, _, hc⟩ := List.mem_map.mp h1
        exact Or.inr ⟨cid, mid, c, hc.symm⟩
      · rcases List.mem_singleton.mp h1 with rfl
        exact Or.inl ⟨_, rfl⟩
    | failure chunks err =>
      rw [hst] at he
      simp only [] at he
      rcases List.mem_append.mp he with h1 | h1
      · obtain ⟨c, _, hc⟩ := List.mem_map.mp h1
        exact Or.inr ⟨cid, mid, c, hc.symm⟩
      · rcases List.mem_singleton.mp h1 with rfl
        exact Or.inl ⟨_, rfl⟩

/-- The response stage invokes the stream only for its own minion. -/
theorem runStreamingResponse_calls (stream : MinionConfig → StreamOutcome)
    (cid mid : String) (minion : MinionConfig) (plan : PerceptionPlan)
    (keyInfo : SelectedKeyInfo) (now : Nat) (s : ServiceState) :
    ∀ m ∈ (runStreamingResponse stream cid mid minion plan keyInfo now s).2.2,
      m = minion := by
  intro m hm
  by_cases hkey : (keyInfo.key == "") = true
  · simp only [runStreamingResponse, hkey, if_true] at hm
    cases hm
  · simp only [Bool.not_eq_true] at hkey
    simp only [runStreamingResponse, hkey, Bool.false_eq_true, if_false] at hm
    cases hst : stream minion with
    | success chunks =>
      rw [hst] at hm
      simp only [] at hm
      exact List.mem_singleton.mp hm
    | failure chunks err =>
      rw [hst] at hm
      simp only [] at hm
      exact List.mem_singleton.mp hm

/-- The composing-off notifications are status events, never messages. -/
theorem speakersOffEvents_shape (minions : List MinionConfig)
    (speakers : List (MinionConfig × PerceptionPlan)) :
    ∀ e ∈ speakersOffEvents minions speakers, ∃ n b, e = Event.processingUpdate n b := by
  intro e he
  obtain ⟨m, _, hm⟩ := List.mem_filterMap.mp he
  by_cases hc : (speakers.any (fun sp => sp.1.id == m.id)) = true
  · simp only [hc, if_true] at hm
    exact Option.noConfusion hm
  · simp only [Bool.not_eq_true] at hc
    simp only [hc, Bool.false_eq_true, if_false, Option.some_inj] at hm
    exact ⟨m.name, false, hm.symm⟩

/-- Master description of an autonomous batch under `goodKeys`, an active
auto channel with at least two member minions and a last message: the run
never throws; the model is consulted only for members that did not author the
triggering message; the stream is invoked only for the scheduled (fastest)
speaker; no emitted system message carries the error flag; and when the SPEAK
set is empty the batch leaves the transcript alone, emits exactly one
"all silent" notice, and runs no response stage. -/
theorem triggerAuto_run (perceive : MinionConfig → PerceptionOutcome)
    (stream : MinionConfig → StreamOutcome) (now : Nat) (s : ServiceState)
    (cid : String) (ch : Channel) (lastMsg : ChatMessageData)
    (hch : s.channels.find? (fun c => c.id == cid) = some ch)
    (hauto : ch.isAutoModeActive = true)
    (hg : goodKeys s)
    (h2 : 2 ≤ (minionsInChannel s ch).length)
    (hlast : (msgsGet s cid).getLast? = some lastMsg) :
    ∃ r, triggerNextAutoChatTurn perceive stream now s cid = some r ∧
      (∀ m ∈ r.percCalls, m.name ≠ lastMsg.senderName ∧ m ∈ minionsInChannel s ch) ∧
      (∀ m ∈ r.streamCalls, ∃ plan rest,
        autoSpeakers ((minionsInChannel s ch).map
          (fun x => (x, autoOutcome perceive lastMsg.senderName x))) = (m, plan) :: rest) ∧
      (∀ e ∈ r.events, ∀ msg, e = Event.systemMessage msg → msg.isError = false) ∧
      (autoSpeakers ((minionsInChannel s ch).map
          (fun x => (x, autoOutcome perceive lastMsg.senderName x))) = [] →
        r.state.messages = s.messages ∧
        r.events.countP isAllSilentEvent = 1 ∧
        r.streamCalls = [] ∧
        (∀ e ∈ r.events, ∀ msg, e = Event.minionResponse msg → False)) := by
  have hlt : ¬ ((minionsInChannel s ch).length < 2) := by omega
  have hauto' : (!ch.isAutoModeActive) = false := by rw [hauto]; rfl
  obtain ⟨s1, evsPerc, percCalls, hperc, hmc1, hch1, hms1, hak1, hg1, hevsPerc, hcalls⟩ :=
    perceptionAuto_good perceive cid lastMsg.senderName now (minionsInChannel s ch) s hg
  have hevsOn : ∀ e ∈ (minionsInChannel s ch).map
      (fun m => Event.processingUpdate m.name true), ∃ n b, e = Event.processingUpdate n b := by
    intro e he
    obtain ⟨m, _, hm⟩ := List.mem_map.mp he
    exact ⟨m.name, true, hm.symm⟩
  have hevsOff : ∀ e ∈ (minionsInChannel s ch).map
      (fun m => Event.processingUpdate m.name false), ∃ n b, e = Event.processingUpdate n b := by
    intro e he
    obtain ⟨m, _, hm⟩ := List.mem_map.mp he
    exact ⟨m.name, false, hm.symm⟩
  cases hsp : autoSpeakers ((minionsInChannel s ch).map
      (fun x => (x, autoOutcome perceive lastMsg.senderName x))) with
  | nil =>
    refine ⟨⟨s1,
      (minionsInChannel s ch).map (fun m => Event.processingUpdate m.name true) ++
        evsPerc ++
        (minionsInChannel s ch).map (fun m => Event.processingUpdate m.name false) ++
        [Event.systemMessage (allSilentMessage cid now)],
      percCalls, []⟩, ?_, ?_, ?_, ?_, ?_⟩
    · simp only [triggerNextAutoChatTurn, hch, hauto', Bool.false_eq_true, if_false,
        if_neg hlt, hlast, hperc, hsp]
    · intro m hm
      exact hcalls m hm
    · intro m hm
      cases hm
    · intro e he msg hmsg
      subst hmsg
      rcases List.mem_append.mp he with h1 | h1
      · rcases List.mem_append.mp h1 with h2 | h2
        · rcases List.mem_append.mp h2 with h3 | h3
          · obtain ⟨n, b, hnb⟩ := hevsOn _ h3
            cases hnb
          · obtain ⟨n, info, st, hk⟩ := hevsPerc _ h3
            injection hk with hk1
            rw [hk1]
            rfl
        · obtain ⟨n, b, hnb⟩ := hevsOff _ h2
          cases hnb
      · rcases List.mem_singleton.mp h1 with h1
        injection h1 with h1
        rw [h1]
        rfl
    · intro _
      refine ⟨hms1, ?_, rfl, ?_⟩
      · simp only [List.countP_append]
        have c1 : ((minionsInChannel s ch).map
            (fun m => Event.processingUpdate m.name true)).countP isAllSilentEvent = 0 := by
          rw [List.countP_eq_zero]
          intro e he
          obtain ⟨n, b, hnb⟩ := hevsOn _ he
          rw [hnb]
          simp [isAllSilentEvent]
        have c2 : evsPerc.countP isAllSilentEvent = 0 := by
          rw [List.countP_eq_zero]
          intro e he
          obtain ⟨n, info, st, hk⟩ := hevsPerc _ he
          rw [hk]
          simp only [isAllSilentEvent, apiKeyLogMessage, beq_iff_eq]
          exact keylogContent_ne_allSilent n info.name (methodStr info.method) st
        have c3 : ((minionsInChannel s ch).map
            (fun m => Event.processingUpdate m.name false)).countP isAllSilentEvent = 0 := by
          rw [List.countP_eq_zero]
          intro e he
          obtain ⟨n, b, hnb⟩ := hevsOff _ he
          rw [hnb]
          simp [isAllSilentEvent]
        have c4 : ([Event.systemMessage (allSilentMessage cid now)]).countP
            isAllSilentEvent = 1 := by
          simp [isAllSilentEvent, allSilentMessage]
        rw [c1, c2, c3, c4]
      · intro e he msg hmsg
        subst hmsg
        rcases List.mem_append.mp he with h1 | h1
        · rcases List.mem_append.mp h1 with h2 | h2
          · rcases List.mem_append.mp h2 with h3 | h3
            · obtain ⟨n, b, hnb⟩ := hevsOn _ h3
              cases hnb
            · obtain ⟨n, info, st, hk⟩ := hevsPerc _ h3
              cases hk
          · obtain ⟨n, b, hnb⟩ := hevsOff _ h2
            cases hnb
        · rcases List.mem_singleton.mp h1 with h1
          cases h1
  | cons sp0 rest =>
    obtain ⟨minion, plan⟩ := sp0
    obtain ⟨info, s2, hsel, hkey, hmc2, hch2, hms2, hak2, hg2⟩ :=
      selectApiKey_good minion.apiKeyId s1 hg1
    rcases hrs : runStreamingResponse stream cid (aiMsgId minion.id now) minion plan
        info now s2 with ⟨s3, evStream, calls3⟩
    have hevStream := runStreamingResponse_events stream cid (aiMsgId minion.id now)
      minion plan info now s2
    rw [hrs] at hevStream
    have hcallsS := runStreamingResponse_calls stream cid (aiMsgId minion.id now)
      minion plan info now s2
    rw [hrs] at hcallsS
    refine ⟨⟨s3,
      (minionsInChannel s ch).map (fun m => Event.processingUpdate m.name true) ++
        evsPerc ++
        (minionsInChannel s ch).map (fun m => Event.processingUpdate m.name false) ++
        (Event.processingUpdate minion.name true ::
          Event.minionResponse (placeholderMessage cid minion now) ::
          Event.systemMessage (apiKeyLogMessage cid minion.name info "Response" now) ::
          evStream) ++
        [Event.processingUpdate minion.name false],
      percCalls, calls3⟩, ?_, ?_, ?_, ?_, ?_⟩
    · simp only [triggerNextAutoChatTurn, hch, hauto', Bool.false_eq_true, if_false,
        if_neg hlt, hlast, hperc, hsp, hsel, hrs]
    · intro m hm
      exact hcalls m hm
    · intro m hm
      have hmm : m = minion := hcallsS m hm
      subst hmm
      exact ⟨plan, rest, rfl⟩
    · intro e he msg hmsg
      subst hmsg
      rcases List.mem_append.mp he with h1 | h1
      · rcases List.mem_append.mp h1 with h2 | h2
        · rcases List.mem_append.mp h2 with h3 | h3
          · rcases List.mem_append.mp h3 with h4 | h4
            · obtain ⟨n, b, hnb⟩ := hevsOn _ h4
              cases hnb
            · obtain ⟨n, info', st, hk⟩ := hevsPerc _ h4
              injection hk with hk1
              rw [hk1]
              rfl
          · obtain ⟨n, b, hnb⟩ := hevsOff _ h3
            cases hnb
        · rcases List.mem_cons.mp h2 with h3 | h3
          · cases h3
          rcases List.mem_cons.mp h3 with h4 | h4
          · cases h4
          rcases List.mem_cons.mp h4 with h5 | h5
          · injection h5 with h5
            rw [h5]
            rfl
          · rcases hevStream _ h5 with ⟨m', hm'⟩ | ⟨a, b, c, habc⟩
            · exact Event.noConfusion hm'
            · exact Event.noConfusion habc
      · rcases List.mem_singleton.mp h1 with h1
        cases h1
    · intro hempty
      exact List.noConfusion hempty

/-- Every transcript addition of a response stage comes from a successfully
streamed speaker: it is that speaker's finalized message, carrying the
speaker's plan as diary, not in progress and not an error. -/
theorem respAdditions_mem (stream : MinionConfig → StreamOutcome) (now : Nat)
    (cid : String) (speakers : List (MinionConfig × PerceptionPlan)) :
    ∀ a ∈ respAdditions stream now cid speakers, ∃ sp ∈ speakers, ∃ chunks,
      stream sp.1 = .success chunks ∧
      a = finalAiMessage cid (aiMsgId sp.1.id now) sp.1 sp.2 chunks now := by
  intro a ha
  obtain ⟨sp, hsp, hf⟩ := List.mem_filterMap.mp ha
  cases hst : stream sp.1 with
  | success chunks =>
    rw [hst] at hf
    simp only [Option.some_inj] at hf
    exact ⟨sp, hsp, chunks, hst, hf.symm⟩
  | failure chunks err =>
    rw [hst] at hf
    cases hf

/-- C1, counterexample: an autonomous batch in which both members' perception
calls succeed with parseable STAY_SILENT plans completes (with the all-silent
notice path) yet leaves both agents' stored opinion maps and diaries exactly
as they were — the batch never commits `finalOpinions` or the plan, so the
claim fails for `triggerNextAutoChatTurn`. -/
theorem C1_counterexample :
    (fun _ : MinionConfig =>
      (⟨some ⟨"", [], [("Steven", 60)], "m", none, PlanAction.staySilent, "", 100⟩,
        none⟩ : PerceptionOutcome)) ⟨"m1", "Alpha", "g", "p", 1, none, [], none, none⟩ =
      ⟨some ⟨"", [], [("Steven", 60)], "m", none, PlanAction.staySilent, "", 100⟩, none⟩ ∧
    (triggerNextAutoChatTurn
        (fun _ : MinionConfig =>
          (⟨some ⟨"", [], [("Steven", 60)], "m", none, PlanAction.staySilent, "", 100⟩,
            none⟩ : PerceptionOutcome))
        (fun _ => StreamOutcome.success []) 5
        ⟨[⟨"m1", "Alpha", "g", "p", 1, none, [], none, none⟩,
          ⟨"m2", "Bravo", "g", "p", 1, none, [], none, none⟩],
         [⟨"swarm", "#s", "", ChannelType.minion_minion_auto, ["Alpha", "Bravo"], true⟩],
         [("swarm", [⟨"u1", "swarm", MessageSender.user, "Steven", "go", 1, none,
           false, false, false⟩])],
         [⟨"key-1", "A", "ka"⟩], 0⟩
        "swarm").map (fun r => r.state.minionConfigs) =
      some [⟨"m1", "Alpha", "g", "p", 1, none, [], none, none⟩,
        ⟨"m2", "Bravo", "g", "p", 1, none, [], none, none⟩] ∧
    ([] : List (String × Int)) ≠ [("Steven", 60)] ∧
    (none : Option PerceptionPlan) ≠
      some ⟨"", [], [("Steven", 60)], "m", none, PlanAction.staySilent, "", 100⟩ := by
  refine ⟨rfl, ?_, by decide, by decide⟩
  decide

/-- C1 (amended): in a human-triggered batch, every member whose perception
call succeeds with a parseable plan has, once the batch completes, its stored
opinion map equal to the plan's `finalOpinions` and its stored diary equal to
the plan — whatever the plan's action (the plan's `action` field is
unconstrained here).  The autonomous batch does not commit perception
results; see the counterexample. -/
theorem C1_human_state_commit (perceive : MinionConfig → PerceptionOutcome)
    (stream : MinionConfig → StreamOutcome) (now : Nat) (s : ServiceState)
    (cid : String) (userMessage : ChatMessageData) (ch : Channel)
    (minion : MinionConfig) (plan : PerceptionPlan)
    (hch : s.channels.find? (fun c => c.id == cid) = some ch)
    (hg : goodKeys s)
    (hne : minionsInChannel s ch ≠ [])
    (hnd : (s.minionConfigs.map (fun m => m.id)).Nodup)
    (hfresh : ∀ m ∈ minionsInChannel s ch, ∀ msg ∈ msgsGet s cid ++ [userMessage],
        msg.id ≠ aiMsgId m.id now)
    (hmem : minion ∈ minionsInChannel s ch)
    (hpercm : perceive minion = ⟨some plan, none⟩) :
    ∃ r, handleUserMessage perceive stream now s cid userMessage = some r ∧
      ∀ m ∈ r.state.minionConfigs, m.id = minion.id →
        m.opinionScores = plan.finalOpinions ∧ m.lastDiaryState = some plan := by
  obtain ⟨s3, evsPerc, evsProc, evsResp, percCalls, streamCalls, hrun, _, _, _, _, hok⟩ :=
    handleUserMessage_run perceive stream now s cid userMessage ch hch hg hne hnd hfresh
  exact ⟨_, hrun, hok minion hmem plan hpercm⟩

/-- C1 witness: a one-minion channel whose perception yields a STAY_SILENT
plan; after the batch the stored opinions and diary are the plan's. -/
theorem C1_human_state_commit_witness :
    ∃ r, handleUserMessage
        (fun _ : MinionConfig =>
          (⟨some ⟨"", [], [("Steven", 60)], "m", none, PlanAction.staySilent, "", 100⟩,
            none⟩ : PerceptionOutcome))
        (fun _ => StreamOutcome.success []) 5
        ⟨[⟨"m1", "Alpha", "g", "p", 1, none, [("Steven", 50)], none, none⟩],
         [⟨"general", "#g", "", ChannelType.user_minion_group, ["Alpha"], false⟩],
         [], [⟨"key-1", "A", "ka"⟩], 0⟩
        "general"
        ⟨"u1", "general", MessageSender.user, "Steven", "hi", 5, none, false, false, false⟩ =
        some r ∧
      ∀ m ∈ r.state.minionConfigs, m.id = "m1" →
        m.opinionScores = [("Steven", 60)] ∧
        m.lastDiaryState = some ⟨"", [], [("Steven", 60)], "m", none,
          PlanAction.staySilent, "", 100⟩ :=
  C1_human_state_commit
    (fun _ : MinionConfig =>
      (⟨some ⟨"", [], [("Steven", 60)], "m", none, PlanAction.staySilent, "", 100⟩,
        none⟩ : PerceptionOutcome))
    (fun _ => StreamOutcome.success []) 5
    ⟨[⟨"m1", "Alpha", "g", "p", 1, none, [("Steven", 50)], none, none⟩],
     [⟨"general", "#g", "", ChannelType.user_minion_group, ["Alpha"], false⟩],
     [], [⟨"key-1", "A", "ka"⟩], 0⟩
    "general"
    ⟨"u1", "general", MessageSender.user, "Steven", "hi", 5, none, false, false, false⟩
    ⟨"general", "#g", "", ChannelType.user_minion_group, ["Alpha"], false⟩
    ⟨"m1", "Alpha", "g", "p", 1, none, [("Steven", 50)], none, none⟩
    ⟨"", [], [("Steven", 60)], "m", none, PlanAction.staySilent, "", 100⟩
    (by decide) (by decide) (by decide) (by decide) (by decide) (by decide) rfl

/-- C2: in a human-triggered batch, responses are generated strictly
sequentially over the SPEAK set sorted ascending on the plans'
`predictedResponseTime` (the sole ordering key), so the batch's finalized
transcript additions — each carrying its speaker's plan as diary — appear in
non-decreasing order of each speaking agent's own predicted latency. -/
theorem C2_speak_order (perceive : MinionConfig → PerceptionOutcome)
    (stream : MinionConfig → StreamOutcome) (now : Nat) (s : ServiceState)
    (cid : String) (userMessage : ChatMessageData) (ch : Channel)
    (hch : s.channels.find? (fun c => c.id == cid) = some ch)
    (hg : goodKeys s)
    (hne : minionsInChannel s ch ≠ [])
    (hnd : (s.minionConfigs.map (fun m => m.id)).Nodup)
    (hfresh : ∀ m ∈ minionsInChannel s ch, ∀ msg ∈ msgsGet s cid ++ [userMessage],
        msg.id ≠ aiMsgId m.id now) :
    ∃ r, handleUserMessage perceive stream now s cid userMessage = some r ∧
      msgsGet r.state cid = (msgsGet s cid ++ [userMessage]) ++
        respAdditions stream now cid
          (List.insertionSort speakerLe (humanSpeakSet perceive s ch)) ∧
      List.Sorted speakerLe (List.insertionSort speakerLe (humanSpeakSet perceive s ch)) ∧
      (respAdditions stream now cid
        (List.insertionSort speakerLe (humanSpeakSet perceive s ch))).Pairwise
          (fun a b => diaryTime a ≤ diaryTime b) := by
  obtain ⟨s3, evsPerc, evsProc, evsResp, percCalls, streamCalls, hrun, _, _, _, hmsgs, _⟩ :=
    handleUserMessage_run perceive stream now s cid userMessage ch hch hg hne hnd hfresh
  have hsorted : List.Sorted speakerLe
      (List.insertionSort speakerLe (humanSpeakSet perceive s ch)) :=
    List.sorted_insertionSort speakerLe (humanSpeakSet perceive s ch)
  refine ⟨_, hrun, hmsgs, hsorted, ?_⟩
  apply pairwise_filterMap_of speakerLe (fun a b => diaryTime a ≤ diaryTime b)
  · intro a b x y hR hfa hfb
    cases hsta : stream a.1 with
    | success chunksa =>
      rw [hsta] at hfa
      simp only [Option.some_inj] at hfa
      cases hstb : stream b.1 with
      | success chunksb =>
        rw [hstb] at hfb
        simp only [Option.some_inj] at hfb
        rw [← hfa, ← hfb]
        exact hR
      | failure _ _ => rw [hstb] at hfb; cases hfb
    | failure _ _ => rw [hsta] at hfa; cases hfa
  · exact hsorted

/-- C2 witness: two speakers with latencies 200 and 100; the sorted SPEAK set
is non-decreasing and the run succeeds with the stated transcript shape. -/
theorem C2_speak_order_witness :
    ∃ r, handleUserMessage
        (fun m : MinionConfig =>
          if m.id == "m1" then
            (⟨some ⟨"", [], [("Steven", 60)], "m", none, PlanAction.speak, "x", 200⟩,
              none⟩ : PerceptionOutcome)
          else
            (⟨some ⟨"", [], [("Steven", 70)], "m", none, PlanAction.speak, "y", 100⟩,
              none⟩ : PerceptionOutcome))
        (fun _ => StreamOutcome.success ["ok"]) 5
        ⟨[⟨"m1", "Alpha", "g", "p", 1, none, [("Steven", 50)], none, none⟩,
          ⟨"m2", "Bravo", "g", "p", 1, none, [("Steven", 50)], none, none⟩],
         [⟨"general", "#g", "", ChannelType.user_minion_group, ["Alpha", "Bravo"], false⟩],
         [], [⟨"key-1", "A", "ka"⟩], 0⟩
        "general"
        ⟨"u1", "general", MessageSender.user, "Steven", "hi", 5, none, false, false, false⟩ =
        some r ∧
      msgsGet r.state "general" =
        (msgsGet ⟨[⟨"m1", "Alpha", "g", "p", 1, none, [("Steven", 50)], none, none⟩,
          ⟨"m2", "Bravo", "g", "p", 1, none, [("Steven", 50)], none, none⟩],
         [⟨"general", "#g", "", ChannelType.user_minion_group, ["Alpha", "Bravo"], false⟩],
         [], [⟨"key-1", "A", "ka"⟩], 0⟩ "general" ++
          [⟨"u1", "general", MessageSender.user, "Steven", "hi", 5, none, false, false,
            false⟩]) ++
        respAdditions (fun _ => StreamOutcome.success ["ok"]) 5 "general"
          (List.insertionSort speakerLe (humanSpeakSet
            (fun m : MinionConfig =>
              if m.id == "m1" then
                (⟨some ⟨"", [], [("Steven", 60)], "m", none, PlanAction.speak, "x", 200⟩,
                  none⟩ : PerceptionOutcome)
              else
                (⟨some ⟨"", [], [("Steven", 70)], "m", none, PlanAction.speak, "y", 100⟩,
                  none⟩ : PerceptionOutcome))
            ⟨[⟨"m1", "Alpha", "g", "p", 1, none, [("Steven", 50)], none, none⟩,
              ⟨"m2", "Bravo", "g", "p", 1, none, [("Steven", 50)], none, none⟩],
             [⟨"general", "#g", "", ChannelType.user_minion_group, ["Alpha", "Bravo"],
               false⟩],
             [], [⟨"key-1", "A", "ka"⟩], 0⟩
            ⟨"general", "#g", "", ChannelType.user_minion_group, ["Alpha", "Bravo"],
              false⟩)) ∧
      (respAdditions (fun _ => StreamOutcome.success ["ok"]) 5 "general"
        (List.insertionSort speakerLe (humanSpeakSet
          (fun m : MinionConfig =>
            if m.id == "m1" then
              (⟨some ⟨"", [], [("Steven", 60)], "m", none, PlanAction.speak, "x", 200⟩,
                none⟩ : PerceptionOutcome)
            else
              (⟨some ⟨"", [], [("Steven", 70)], "m", none, PlanAction.speak, "y", 100⟩,
                none⟩ : PerceptionOutcome))
          ⟨[⟨"m1", "Alpha", "g", "p", 1, none, [("Steven", 50)], none, none⟩,
            ⟨"m2", "Bravo", "g", "p", 1, none, [("Steven", 50)], none, none⟩],
           [⟨"general", "#g", "", ChannelType.user_minion_group, ["Alpha", "Bravo"],
             false⟩],
           [], [⟨"key-1", "A", "ka"⟩], 0⟩
          ⟨"general", "#g", "", ChannelType.user_minion_group, ["Alpha", "Bravo"],
            false⟩))).Pairwise (fun a b => diaryTime a ≤ diaryTime b) := by
  obtain ⟨r, h1, h2, _, h4⟩ := C2_speak_order
    (fun m : MinionConfig =>
      if m.id == "m1" then
        (⟨some ⟨"", [], [("Steven", 60)], "m", none, PlanAction.speak, "x", 200⟩,
          none⟩ : PerceptionOutcome)
      else
        (⟨some ⟨"", [], [("Steven", 70)], "m", none, PlanAction.speak, "y", 100⟩,
          none⟩ : PerceptionOutcome))
    (fun _ => StreamOutcome.success ["ok"]) 5
    ⟨[⟨"m1", "Alpha", "g", "p", 1, none, [("Steven", 50)], none, none⟩,
      ⟨"m2", "Bravo", "g", "p", 1, none, [("Steven", 50)], none, none⟩],
     [⟨"general", "#g", "", ChannelType.user_minion_group, ["Alpha", "Bravo"], false⟩],
     [], [⟨"key-1", "A", "ka"⟩], 0⟩
    "general"
    ⟨"u1", "general", MessageSender.user, "Steven", "hi", 5, none, false, false, false⟩
    ⟨"general", "#g", "", ChannelType.user_minion_group, ["Alpha", "Bravo"], false⟩
    (by decide) (by decide) (by decide) (by decide) (by decide)
  exact ⟨r, h1, h2, h4⟩

/-- Every scheduled speaker of an autonomous batch comes from a settled
result that carried its plan. -/
theorem autoSpeakers_mem (results : List (MinionConfig × PerceptionOutcome)) :
    ∀ sp ∈ autoSpeakers results, ∃ res ∈ results, sp.1 = res.1 ∧
      res.2.plan = some sp.2 := by
  intro sp hsp
  have hsp' : sp ∈ results.filterMap (fun r =>
      match r.2.plan with
      | some p => if p.action == PlanAction.speak then some (r.1, p) else none
      | none => none) := (List.mem_insertionSort _).mp hsp
  obtain ⟨res, hres, hf⟩ := List.mem_filterMap.mp hsp'
  cases hp : res.2.plan with
  | none => rw [hp] at hf; cases hf
  | some p =>
    rw [hp] at hf
    by_cases hact : (p.action == PlanAction.speak) = true
    · simp only [hact, if_true, Option.some_inj] at hf
      subst hf
      exact ⟨res, hres, rfl, hp.trans rfl⟩
    · simp only [Bool.not_eq_true] at hact
      simp only [hact, Bool.false_eq_true, if_false] at hf
      cases hf

/-- C4: in every autonomous batch (active auto channel, at least two member
minions, a last message present, usable credentials), an agent whose name is
the last message's sender name is never sent to the model (neither perception
nor response stage), never appears as a candidate speaker, its settled
outcome is the synthesized "Cannot respond to self." non-call outcome, and no
system message of the whole batch carries the error flag — the outcome is
handled exactly like a silent one. -/
theorem C4_self_exclusion (perceive : MinionConfig → PerceptionOutcome)
    (stream : MinionConfig → StreamOutcome) (now : Nat) (s : ServiceState)
    (cid : String) (ch : Channel) (lastMsg : ChatMessageData)
    (hch : s.channels.find? (fun c => c.id == cid) = some ch)
    (hauto : ch.isAutoModeActive = true)
    (hg : goodKeys s)
    (h2 : 2 ≤ (minionsInChannel s ch).length)
    (hlast : (msgsGet s cid).getLast? = some lastMsg) :
    ∃ r, triggerNextAutoChatTurn perceive stream now s cid = some r ∧
      (∀ m ∈ s.minionConfigs, m.name = lastMsg.senderName →
        m ∉ r.percCalls ∧ m ∉ r.streamCalls) ∧
      (∀ sp ∈ autoSpeakers ((minionsInChannel s ch).map
          (fun x => (x, autoOutcome perceive lastMsg.senderName x))),
        sp.1.name ≠ lastMsg.senderName) ∧
      (∀ m ∈ minionsInChannel s ch, m.name = lastMsg.senderName →
        (m, selfOutcome) ∈ (minionsInChannel s ch).map
          (fun x => (x, autoOutcome perceive lastMsg.senderName x))) ∧
      (∀ e ∈ r.events, ∀ msg, e = Event.systemMessage msg → msg.isError = false) := by
  obtain ⟨r, hrun, hperc, hstream, hevents, _⟩ :=
    triggerAuto_run perceive stream now s cid ch lastMsg hch hauto hg h2 hlast
  have hspeakers : ∀ sp ∈ autoSpeakers ((minionsInChannel s ch).map
      (fun x => (x, autoOutcome perceive lastMsg.senderName x))),
      sp.1.name ≠ lastMsg.senderName := by
    intro sp hsp hname
    obtain ⟨res, hres, h1, h2p⟩ := autoSpeakers_mem _ sp hsp
    obtain ⟨x, _, hx⟩ := List.mem_map.mp hres
    subst hx
    have h1' : sp.1 = x := h1
    have h2p' : (autoOutcome perceive lastMsg.senderName x).plan = some sp.2 := h2p
    have hxname : x.name = lastMsg.senderName := by rw [← h1']; exact hname
    have hb : (x.name == lastMsg.senderName) = true := by simp [beq_iff_eq, hxname]
    simp only [autoOutcome, hb, if_true] at h2p'
    exact Option.noConfusion h2p'
  refine ⟨r, hrun, ?_, hspeakers, ?_, hevents⟩
  · intro m _ hname
    constructor
    · intro hmem
      exact (hperc m hmem).1 hname
    · intro hmem
      obtain ⟨plan, rest, hsp⟩ := hstream m hmem
      exact hspeakers (m, plan) (by rw [hsp]; exact List.mem_cons_self _ _) hname
  · intro m hmem hname
    have hb : (m.name == lastMsg.senderName) = true := by simp [beq_iff_eq, hname]
    refine List.mem_map.mpr ⟨m, hmem, ?_⟩
    simp only [autoOutcome, hb, if_true]

/-- C4 witness: Alpha authored the last message; Bravo plans to SPEAK.  The
batch runs, Alpha is excluded everywhere, Bravo is the speaker. -/
theorem C4_self_exclusion_witness :
    ∃ r, triggerNextAutoChatTurn
        (fun _ : MinionConfig =>
          (⟨some ⟨"", [], [("Steven", 60)], "m", none, PlanAction.speak, "x", 100⟩,
            none⟩ : PerceptionOutcome))
        (fun _ => StreamOutcome.success ["ok"]) 5
        ⟨[⟨"m1", "Alpha", "g", "p", 1, none, [], none, none⟩,
          ⟨"m2", "Bravo", "g", "p", 1, none, [], none, none⟩],
         [⟨"swarm", "#s", "", ChannelType.minion_minion_auto, ["Alpha", "Bravo"], true⟩],
         [("swarm", [⟨"a1", "swarm", MessageSender.ai, "Alpha", "hello", 1, none,
           false, false, false⟩])],
         [⟨"key-1", "A", "ka"⟩], 0⟩
        "swarm" = some r ∧
      (∀ m ∈ [(⟨"m1", "Alpha", "g", "p", 1, none, [], none, none⟩ : MinionConfig),
          ⟨"m2", "Bravo", "g", "p", 1, none, [], none, none⟩],
        m.name = "Alpha" → m ∉ r.percCalls ∧ m ∉ r.streamCalls) ∧
      (∀ e ∈ r.events, ∀ msg, e = Event.systemMessage msg → msg.isError = false) := by
  obtain ⟨r, h1, h2, _, _, h5⟩ := C4_self_exclusion
    (fun _ : MinionConfig =>
      (⟨some ⟨"", [], [("Steven", 60)], "m", none, PlanAction.speak, "x", 100⟩,
        none⟩ : PerceptionOutcome))
    (fun _ => StreamOutcome.success ["ok"]) 5
    ⟨[⟨"m1", "Alpha", "g", "p", 1, none, [], none, none⟩,
      ⟨"m2", "Bravo", "g", "p", 1, none, [], none, none⟩],
     [⟨"swarm", "#s", "", ChannelType.minion_minion_auto, ["Alpha", "Bravo"], true⟩],
     [("swarm", [⟨"a1", "swarm", MessageSender.ai, "Alpha", "hello", 1, none,
       false, false, false⟩])],
     [⟨"key-1", "A", "ka"⟩], 0⟩
    "swarm"
    ⟨"swarm", "#s", "", ChannelType.minion_minion_auto, ["Alpha", "Bravo"], true⟩
    ⟨"a1", "swarm", MessageSender.ai, "Alpha", "hello", 1, none, false, false, false⟩
    (by decide) (by decide) (by decide) (by decide) (by decide)
  exact ⟨r, h1, fun m hm hname => h2 m hm hname, h5⟩

/-- C5, counterexample: a human-triggered batch whose perception phase yields
an empty SPEAK set (its single minion returns a parseable STAY_SILENT plan)
emits zero "all silent this turn" notices — `handleUserMessage` has no
batch-level notice, only the per-agent "chose to remain silent." message —
contradicting the claim's "exactly one" for the human-triggered batch. -/
theorem C5_counterexample :
    humanSpeakSet
      (fun _ : MinionConfig =>
        (⟨some ⟨"", [], [("Steven", 60)], "m", none, PlanAction.staySilent, "", 100⟩,
          none⟩ : PerceptionOutcome))
      ⟨[⟨"m1", "Alpha", "g", "p", 1, none, [("Steven", 50)], none, none⟩],
       [⟨"general", "#g", "", ChannelType.user_minion_group, ["Alpha"], false⟩],
       [], [⟨"key-1", "A", "ka"⟩], 0⟩
      ⟨"general", "#g", "", ChannelType.user_minion_group, ["Alpha"], false⟩ = [] ∧
    (handleUserMessage
      (fun _ : MinionConfig =>
        (⟨some ⟨"", [], [("Steven", 60)], "m", none, PlanAction.staySilent, "", 100⟩,
          none⟩ : PerceptionOutcome))
      (fun _ => StreamOutcome.success []) 5
      ⟨[⟨"m1", "Alpha", "g", "p", 1, none, [("Steven", 50)], none, none⟩],
       [⟨"general", "#g", "", ChannelType.user_minion_group, ["Alpha"], false⟩],
       [], [⟨"key-1", "A", "ka"⟩], 0⟩
      "general"
      ⟨"u1", "general", MessageSender.user, "Steven", "hi", 5, none, false, false,
        false⟩).map (fun r => r.events.countP isAllSilentEvent) = some 0 := by
  refine ⟨by decide, by decide⟩

/-- C5 (amended): when the perception phase yields an empty SPEAK set, the
autonomous batch emits exactly one "all silent this turn" notice and runs no
response stage (transcript untouched, no stream call, no response message);
the human-triggered batch also runs no response stage but emits no batch-level
notice at all (it emits only per-agent silence notices and failure
diagnostics), leaving the transcript with just the user message appended. -/
theorem C5_all_silent_behavior :
    (∀ (perceive : MinionConfig → PerceptionOutcome)
       (stream : MinionConfig → StreamOutcome) (now : Nat) (s : ServiceState)
       (cid : String) (ch : Channel) (lastMsg : ChatMessageData),
      s.channels.find? (fun c => c.id == cid) = some ch →
      ch.isAutoModeActive = true →
      goodKeys s →
      2 ≤ (minionsInChannel s ch).length →
      (msgsGet s cid).getLast? = some lastMsg →
      autoSpeakers ((minionsInChannel s ch).map
        (fun x => (x, autoOutcome perceive lastMsg.senderName x))) = [] →
      ∃ r, triggerNextAutoChatTurn perceive stream now s cid = some r ∧
        r.events.countP isAllSilentEvent = 1 ∧
        r.state.messages = s.messages ∧
        r.streamCalls = [] ∧
        (∀ e ∈ r.events, ∀ msg, e = Event.minionResponse msg → False)) ∧
    (∀ (perceive : MinionConfig → PerceptionOutcome)
       (stream : MinionConfig → StreamOutcome) (now : Nat) (s : ServiceState)
       (cid : String) (userMessage : ChatMessageData) (ch : Channel),
      s.channels.find? (fun c => c.id == cid) = some ch →
      goodKeys s →
      minionsInChannel s ch ≠ [] →
      (s.minionConfigs.map (fun m => m.id)).Nodup →
      (∀ m ∈ minionsInChannel s ch, ∀ msg ∈ msgsGet s cid ++ [userMessage],
        msg.id ≠ aiMsgId m.id now) →
      humanSpeakSet perceive s ch = [] →
      ∃ r, handleUserMessage perceive stream now s cid userMessage = some r ∧
        r.events.countP isAllSilentEvent = 0 ∧
        msgsGet r.state cid = msgsGet s cid ++ [userMessage] ∧
        r.streamCalls = [] ∧
        (∀ e ∈ r.events, ∀ msg, e = Event.minionResponse msg → False)) := by
  constructor
  · intro perceive stream now s cid ch lastMsg hch hauto hg h2 hlast hempty
    obtain ⟨r, hrun, _, _, _, hsilent⟩ :=
      triggerAuto_run perceive stream now s cid ch lastMsg hch hauto hg h2 hlast
    obtain ⟨hmsgs, hcount, hcalls, hnoresp⟩ := hsilent hempty
    exact ⟨r, hrun, hcount, hmsgs, hcalls, hnoresp⟩
  · intro perceive stream now s cid userMessage ch hch hg hne hnd hfresh hempty
    obtain ⟨s3, evsPerc, evsProc, evsResp, percCalls, streamCalls, hrun, hevsPerc,
      hevsProc, hemptyresp, hmsgs, _⟩ :=
      handleUserMessage_run perceive stream now s cid userMessage ch hch hg hne hnd hfresh
    obtain ⟨hrespnil, hcallsnil⟩ := hemptyresp hempty
    subst hrespnil
    subst hcallsnil
    refine ⟨_, hrun, ?_, ?_, rfl, ?_⟩
    · simp only [List.countP_append, List.append_nil]
      have c1 : ((minionsInChannel s ch).map
          (fun m => Event.processingUpdate m.name true)).countP isAllSilentEvent = 0 := by
        rw [List.countP_eq_zero]
        intro e he
        obtain ⟨m, _, hm⟩ := List.mem_map.mp he
        rw [← hm]
        simp [isAllSilentEvent]
      have c2 : evsPerc.countP isAllSilentEvent = 0 := by
        rw [List.countP_eq_zero]
        intro e he
        obtain ⟨n, info, st, hk⟩ := hevsPerc _ he
        rw [hk]
        simp only [isAllSilentEvent, apiKeyLogMessage, beq_iff_eq]
        exact keylogContent_ne_allSilent n info.name (methodStr info.method) st
      have c3 : evsProc.countP isAllSilentEvent = 0 := by
        rw [List.countP_eq_zero]
        intro e he
        rcases hevsProc _ he with ⟨m, o, hm⟩ | ⟨m, hm⟩
        · rw [hm]
          simp only [isAllSilentEvent, perceptionErrorMessage, beq_iff_eq]
          exact errorContent_ne_allSilent m.name o
        · rw [hm]
          simp only [isAllSilentEvent, silentMessage, beq_iff_eq]
          exact silentContent_ne_allSilent m.name
      have c4 : (speakersOffEvents (minionsInChannel s ch)
          (humanSpeakSet perceive s ch)).countP isAllSilentEvent = 0 := by
        rw [List.countP_eq_zero]
        intro e he
        obtain ⟨n, b, hnb⟩ := speakersOffEvents_shape _ _ e he
        rw [hnb]
        simp [isAllSilentEvent]
      rw [c1, c2, c3, c4]
    · rw [hmsgs, hempty]
      rw [show List.insertionSort speakerLe ([] : List (MinionConfig × PerceptionPlan)) =
        [] from rfl]
      rw [show respAdditions stream now cid [] = [] from rfl, List.append_nil]
    · intro e he msg hmsg
      subst hmsg
      rw [List.append_nil] at he
      rcases List.mem_append.mp he with h1 | h1
      · rcases List.mem_append.mp h1 with h2 | h2
        · rcases List.mem_append.mp h2 with h3 | h3
          · obtain ⟨m, _, hm⟩ := List.mem_map.mp h3
            exact Event.noConfusion hm
          · obtain ⟨n, info, st, hk⟩ := hevsPerc _ h3
            exact Event.noConfusion hk
        · rcases hevsProc _ h2 with ⟨m, o, hm⟩ | ⟨m, hm⟩
          · exact Event.noConfusion hm
          · exact Event.noConfusion hm
      · obtain ⟨n, b, hnb⟩ := speakersOffEvents_shape _ _ _ h1
        exact Event.noConfusion hnb

/-- C5 witness: both amended behaviours at concrete inputs — a two-minion
silent autonomous batch notices exactly once; a one-minion silent human batch
notices zero times. -/
theorem C5_all_silent_witness :
    (∃ r, triggerNextAutoChatTurn
        (fun _ : MinionConfig =>
          (⟨some ⟨"", [], [("Steven", 60)], "m", none, PlanAction.staySilent, "", 100⟩,
            none⟩ : PerceptionOutcome))
        (fun _ => StreamOutcome.success []) 7
        ⟨[⟨"m1", "Alpha", "g", "p", 1, none, [], none, none⟩,
          ⟨"m2", "Bravo", "g", "p", 1, none, [], none, none⟩],
         [⟨"swarm", "#s", "", ChannelType.minion_minion_auto, ["Alpha", "Bravo"], true⟩],
         [("swarm", [⟨"u1", "swarm", MessageSender.user, "Steven", "go", 1, none,
           false, false, false⟩])],
         [⟨"key-1", "A", "ka"⟩], 0⟩
        "swarm" = some r ∧
      r.events.countP isAllSilentEvent = 1 ∧ r.streamCalls = []) ∧
    (∃ r, handleUserMessage
        (fun _ : MinionConfig =>
          (⟨some ⟨"", [], [("Steven", 60)], "m", none, PlanAction.staySilent, "", 100⟩,
            none⟩ : PerceptionOutcome))
        (fun _ => StreamOutcome.success []) 7
        ⟨[⟨"m1", "Alpha", "g", "p", 1, none, [("Steven", 50)], none, none⟩],
         [⟨"general", "#g", "", ChannelType.user_minion_group, ["Alpha"], false⟩],
         [], [⟨"key-1", "A", "ka"⟩], 0⟩
        "general"
        ⟨"u1", "general", MessageSender.user, "Steven", "hi", 7, none, false, false,
          false⟩ = some r ∧
      r.events.countP isAllSilentEvent = 0 ∧ r.streamCalls = []) := by
  constructor
  · obtain ⟨r, h1, h2, _, h4, _⟩ := C5_all_silent_behavior.1
      (fun _ : MinionConfig =>
        (⟨some ⟨"", [], [("Steven", 60)], "m", none, PlanAction.staySilent, "", 100⟩,
          none⟩ : PerceptionOutcome))
      (fun _ => StreamOutcome.success []) 7
      ⟨[⟨"m1", "Alpha", "g", "p", 1, none, [], none, none⟩,
        ⟨"m2", "Bravo", "g", "p", 1, none, [], none, none⟩],
       [⟨"swarm", "#s", "", ChannelType.minion_minion_auto, ["Alpha", "Bravo"], true⟩],
       [("swarm", [⟨"u1", "swarm", MessageSender.user, "Steven", "go", 1, none,
         false, false, false⟩])],
       [⟨"key-1", "A", "ka"⟩], 0⟩
      "swarm"
      ⟨"swarm", "#s", "", ChannelType.minion_minion_auto, ["Alpha", "Bravo"], true⟩
      ⟨"u1", "swarm", MessageSender.user, "Steven", "go", 1, none, false, false, false⟩
      (by decide) (by decide) (by decide) (by decide) (by decide) (by decide)
    exact ⟨r, h1, h2, h4⟩
  · obtain ⟨r, h1, h2, _, h4, _⟩ := C5_all_silent_behavior.2
      (fun _ : MinionConfig =>
        (⟨some ⟨"", [], [("Steven", 60)], "m", none, PlanAction.staySilent, "", 100⟩,
          none⟩ : PerceptionOutcome))
      (fun _ => StreamOutcome.success []) 7
      ⟨[⟨"m1", "Alpha", "g", "p", 1, none, [("Steven", 50)], none, none⟩],
       [⟨"general", "#g", "", ChannelType.user_minion_group, ["Alpha"], false⟩],
       [], [⟨"key-1", "A", "ka"⟩], 0⟩
      "general"
      ⟨"u1", "general", MessageSender.user, "Steven", "hi", 7, none, false, false, false⟩
      ⟨"general", "#g", "", ChannelType.user_minion_group, ["Alpha"], false⟩
      (by decide) (by decide) (by decide) (by decide) (by decide) (by decide)
    exact ⟨r, h1, h2, h4⟩

/-- C9: the response stage's in-progress/error messages live only at the
observer interface.  With a fresh in-progress id: (no-key) the stage delivers
one error-finalized message to the callback and leaves the stored transcript
unchanged; (stream error) likewise the error-finalized message goes only to
the callback and the stored transcript is unchanged; (stream success) exactly
the finalized, non-in-progress message is appended; and a human-triggered
batch never stores any in-progress message — everything in-progress in the
stored transcript was already there or is the user message itself. -/
theorem C9_placeholder_isolation :
    (∀ (stream : MinionConfig → StreamOutcome) (cid mid : String)
       (minion : MinionConfig) (plan : PerceptionPlan) (keyInfo : SelectedKeyInfo)
       (now : Nat) (s : ServiceState),
      (∀ msg ∈ msgsGet s cid, msg.id ≠ mid) →
      keyInfo.key = "" →
      msgsGet (runStreamingResponse stream cid mid minion plan keyInfo now s).1 cid =
        msgsGet s cid ∧
      (runStreamingResponse stream cid mid minion plan keyInfo now s).2.1 =
        [Event.minionResponse (errorFinalMessage cid mid minion
          "Error: No API key available for response generation." now)] ∧
      (errorFinalMessage cid mid minion
        "Error: No API key available for response generation." now).isError = true) ∧
    (∀ (stream : MinionConfig → StreamOutcome) (cid mid : String)
       (minion : MinionConfig) (plan : PerceptionPlan) (keyInfo : SelectedKeyInfo)
       (now : Nat) (s : ServiceState) (chunks : List String) (err : String),
      (∀ msg ∈ msgsGet s cid, msg.id ≠ mid) →
      keyInfo.key ≠ "" →
      stream minion = .failure chunks err →
      msgsGet (runStreamingResponse stream cid mid minion plan keyInfo now s).1 cid =
        msgsGet s cid ∧
      (runStreamingResponse stream cid mid minion plan keyInfo now s).2.1 =
        chunkEvents cid mid chunks ++ [Event.minionResponse (errorFinalMessage cid mid
          minion ("Error: " ++ err) now)]) ∧
    (∀ (stream : MinionConfig → StreamOutcome) (cid mid : String)
       (minion : MinionConfig) (plan : PerceptionPlan) (keyInfo : SelectedKeyInfo)
       (now : Nat) (s : ServiceState) (chunks : List String),
      (∀ msg ∈ msgsGet s cid, msg.id ≠ mid) →
      keyInfo.key ≠ "" →
      stream minion = .success chunks →
      msgsGet (runStreamingResponse stream cid mid minion plan keyInfo now s).1 cid =
        msgsGet s cid ++ [finalAiMessage cid mid minion plan chunks now] ∧
      (finalAiMessage cid mid minion plan chunks now).isProcessing = false) ∧
    (∀ (perceive : MinionConfig → PerceptionOutcome)
       (stream : MinionConfig → StreamOutcome) (now : Nat) (s : ServiceState)
       (cid : String) (userMessage : ChatMessageData) (ch : Channel),
      s.channels.find? (fun c => c.id == cid) = some ch →
      goodKeys s →
      minionsInChannel s ch ≠ [] →
      (s.minionConfigs.map (fun m => m.id)).Nodup →
      (∀ m ∈ minionsInChannel s ch, ∀ msg ∈ msgsGet s cid ++ [userMessage],
        msg.id ≠ aiMsgId m.id now) →
      ∃ r, handleUserMessage perceive stream now s cid userMessage = some r ∧
        ∀ msg ∈ msgsGet r.state cid, msg.isProcessing = true →
          msg ∈ msgsGet s cid ∨ msg = userMessage) := by
  refine ⟨?_, ?_, ?_, ?_⟩
  · intro stream cid mid minion plan keyInfo now s hfresh hkey
    have hkey' : (keyInfo.key == "") = true := by simp [beq_iff_eq, hkey]
    have hmap : (msgsGet s cid).map (fun m =>
        if m.id == mid then errorFinalMessage cid mid minion
          "Error: No API key available for response generation." now else m) =
        msgsGet s cid := by
      apply map_replace_not_found
      intro m hm
      simp [beq_iff_eq, hfresh m hm]
    simp only [runStreamingResponse, hkey', if_true, hmap]
    exact ⟨msgsGet_msgsSet_self s cid (msgsGet s cid), by trivial, by trivial⟩
  · intro stream cid mid minion plan keyInfo now s chunks err hfresh hkey hst
    have hspec := runStreamingResponse_spec stream cid mid minion plan keyInfo now s
      hkey hfresh
    have hkey' : (keyInfo.key == "") = false := by simp [beq_iff_eq, hkey]
    constructor
    · rw [hspec.2.2.2.2, hst, List.append_nil]
    · simp only [runStreamingResponse, hkey', Bool.false_eq_true, if_false, hst]
  · intro stream cid mid minion plan keyInfo now s chunks hfresh hkey hst
    have hspec := runStreamingResponse_spec stream cid mid minion plan keyInfo now s
      hkey hfresh
    constructor
    · rw [hspec.2.2.2.2, hst]
    · rfl
  · intro perceive stream now s cid userMessage ch hch hg hne hnd hfresh
    obtain ⟨s3, evsPerc, evsProc, evsResp, percCalls, streamCalls, hrun, _, _, _,
      hmsgs, _⟩ :=
      handleUserMessage_run perceive stream now s cid userMessage ch hch hg hne hnd hfresh
    refine ⟨_, hrun, ?_⟩
    intro msg hmem hproc
    rw [hmsgs] at hmem
    rcases List.mem_append.mp hmem with h1 | h1
    · rcases List.mem_append.mp h1 with h2 | h2
      · exact Or.inl h2
      · exact Or.inr (List.mem_singleton.mp h2)
    · obtain ⟨sp, _, chunks, _, hfin⟩ := respAdditions_mem stream now cid _ msg h1
      rw [hfin] at hproc
      cases hproc

/-- C9 witness: the no-key, stream-error and stream-success behaviours at a
concrete state with one stored message, plus a concrete batch storing no
in-progress message. -/
theorem C9_placeholder_isolation_witness :
    (msgsGet (runStreamingResponse (fun _ => StreamOutcome.success ["ok"]) "general"
        "ai-m1-5" ⟨"m1", "Alpha", "g", "p", 1, none, [], none, none⟩
        ⟨"", [], [], "m", none, PlanAction.speak, "", 100⟩
        ⟨"", "N/A", KeyMethod.noKeyAvailable⟩ 5
        ⟨[], [], [("general", [⟨"u0", "general", MessageSender.user, "Steven", "old", 1,
          none, false, false, false⟩])], [], 0⟩).1 "general" =
      msgsGet ⟨[], [], [("general", [⟨"u0", "general", MessageSender.user, "Steven",
        "old", 1, none, false, false, false⟩])], [], 0⟩ "general") ∧
    (msgsGet (runStreamingResponse (fun _ => StreamOutcome.failure [] "boom") "general"
        "ai-m1-5" ⟨"m1", "Alpha", "g", "p", 1, none, [], none, none⟩
        ⟨"", [], [], "m", none, PlanAction.speak, "", 100⟩
        ⟨"ka", "A", KeyMethod.loadBalanced⟩ 5
        ⟨[], [], [("general", [⟨"u0", "general", MessageSender.user, "Steven", "old", 1,
          none, false, false, false⟩])], [], 0⟩).1 "general" =
      msgsGet ⟨[], [], [("general", [⟨"u0", "general", MessageSender.user, "Steven",
        "old", 1, none, false, false, false⟩])], [], 0⟩ "general") ∧
    (msgsGet (runStreamingResponse (fun _ => StreamOutcome.success ["ok"]) "general"
        "ai-m1-5" ⟨"m1", "Alpha", "g", "p", 1, none, [], none, none⟩
        ⟨"", [], [], "m", none, PlanAction.speak, "", 100⟩
        ⟨"ka", "A", KeyMethod.loadBalanced⟩ 5
        ⟨[], [], [("general", [⟨"u0", "general", MessageSender.user, "Steven", "old", 1,
          none, false, false, false⟩])], [], 0⟩).1 "general" =
      msgsGet ⟨[], [], [("general", [⟨"u0", "general", MessageSender.user, "Steven",
        "old", 1, none, false, false, false⟩])], [], 0⟩ "general" ++
        [finalAiMessage "general" "ai-m1-5"
          ⟨"m1", "Alpha", "g", "p", 1, none, [], none, none⟩
          ⟨"", [], [], "m", none, PlanAction.speak, "", 100⟩ ["ok"] 5]) ∧
    (∃ r, handleUserMessage
        (fun _ : MinionConfig =>
          (⟨some ⟨"", [], [("Steven", 60)], "m", none, PlanAction.speak, "x", 100⟩,
            none⟩ : PerceptionOutcome))
        (fun _ => StreamOutcome.failure [] "boom") 5
        ⟨[⟨"m1", "Alpha", "g", "p", 1, none, [("Steven", 50)], none, none⟩],
         [⟨"general", "#g", "", ChannelType.user_minion_group, ["Alpha"], false⟩],
         [], [⟨"key-1", "A", "ka"⟩], 0⟩
        "general"
        ⟨"u1", "general", MessageSender.user, "Steven", "hi", 5, none, false, false,
          false⟩ = some r ∧
      ∀ msg ∈ msgsGet r.state "general", msg.isProcessing = true →
        msg ∈ msgsGet ⟨[⟨"m1", "Alpha", "g", "p", 1, none, [("Steven", 50)], none,
          none⟩],
         [⟨"general", "#g", "", ChannelType.user_minion_group, ["Alpha"], false⟩],
         [], [⟨"key-1", "A", "ka"⟩], 0⟩ "general" ∨
        msg = ⟨"u1", "general", MessageSender.user, "Steven", "hi", 5, none, false,
          false, false⟩) :=
  ⟨(C9_placeholder_isolation.1 (fun _ => StreamOutcome.success ["ok"]) "general"
      "ai-m1-5" ⟨"m1", "Alpha", "g", "p", 1, none, [], none, none⟩
      ⟨"", [], [], "m", none, PlanAction.speak, "", 100⟩
      ⟨"", "N/A", KeyMethod.noKeyAvailable⟩ 5
      ⟨[], [], [("general", [⟨"u0", "general", MessageSender.user, "Steven", "old", 1,
        none, false, false, false⟩])], [], 0⟩ (by decide) rfl).1,
    (C9_placeholder_isolation.2.1 (fun _ => StreamOutcome.failure [] "boom") "general"
      "ai-m1-5" ⟨"m1", "Alpha", "g", "p", 1, none, [], none, none⟩
      ⟨"", [], [], "m", none, PlanAction.speak, "", 100⟩
      ⟨"ka", "A", KeyMethod.loadBalanced⟩ 5
      ⟨[], [], [("general", [⟨"u0", "general", MessageSender.user, "Steven", "old", 1,
        none, false, false, false⟩])], [], 0⟩ [] "boom" (by decide) (by decide) rfl).1,
    (C9_placeholder_isolation.2.2.1 (fun _ => StreamOutcome.success ["ok"]) "general"
      "ai-m1-5" ⟨"m1", "Alpha", "g", "p", 1, none, [], none, none⟩
      ⟨"", [], [], "m", none, PlanAction.speak, "", 100⟩
      ⟨"ka", "A", KeyMethod.loadBalanced⟩ 5
      ⟨[], [], [("general", [⟨"u0", "general", MessageSender.user, "Steven", "old", 1,
        none, false, false, false⟩])], [], 0⟩ ["ok"] (by decide) (by decide) rfl).1,
    C9_placeholder_isolation.2.2.2
      (fun _ : MinionConfig =>
        (⟨some ⟨"", [], [("Steven", 60)], "m", none, PlanAction.speak, "x", 100⟩,
          none⟩ : PerceptionOutcome))
      (fun _ => StreamOutcome.failure [] "boom") 5
      ⟨[⟨"m1", "Alpha", "g", "p", 1, none, [("Steven", 50)], none, none⟩],
       [⟨"general", "#g", "", ChannelType.user_minion_group, ["Alpha"], false⟩],
       [], [⟨"key-1", "A", "ka"⟩], 0⟩
      "general"
      ⟨"u1", "general", MessageSender.user, "Steven", "hi", 5, none, false, false,
        false⟩
      ⟨"general", "#g", "", ChannelType.user_minion_group, ["Alpha"], false⟩
      (by decide) (by decide) (by decide) (by decide) (by decide)⟩
